import Mathlib

/-!
Verification of the natural-language specification of
`src/video_metadata_manager.py` (class `VideoMetaDataManager`) against a
shallow embedding of that code in Lean.

Embedding overview.

The repository is a thin CRUD layer over a MySQL table
`video_metadata (video_id VARCHAR PRIMARY KEY, metadata TEXT, created_at, updated_at)`.
We model:

* Python values passed as `metadata` by the inductive type `PyObj`
  (JSON-compatible values: `None`, booleans, integers, strings, lists,
  string-keyed dictionaries), plus a constructor `blob` for an arbitrary
  object that `json.dumps` cannot serialize (it raises `TypeError`).
  Floating-point numbers are outside the model.
* `json.dumps` (default arguments: separators `", "` / `": "`,
  `ensure_ascii=True`) by `dumps`, which returns `Except.error ()` exactly
  where Python raises `TypeError`.
* `json.loads` by `loads`, a recursive-descent parser on the character
  list; `none` models a raised `json.JSONDecodeError`.
* the database by a list of rows `Row` (the `created_at` / `updated_at`
  timestamp columns are omitted: they are set by the database engine and no
  claim mentions them); the `metadata` column is `Option String`, `none`
  modelling SQL `NULL`.
* failures of the external database by an oracle `DbEnv`: `connOk i`
  tells whether the i-th connection attempt inside `_get_connection`
  succeeds, and `queryOk` whether the query itself succeeds once a
  connection is held.
* Python exception flow by `Except PyErr`: each public method is embedded
  as a `body` function that returns `Except.error e` exactly where the
  Python body raises `e`, composed with an explicit handler that mirrors
  the `except` clauses of the source.
-/

namespace VideoMetadata

/-- Python values that can be passed as the `metadata` argument of
`insert_video_data` / `update_video_metadata`, and that `json.loads` can
produce. `blob` stands for a Python object that is not JSON-serializable
(for example a set or a custom class instance): `json.dumps` raises
`TypeError` on it. -/
inductive PyObj where
  | null : PyObj
  | bool (b : Bool) : PyObj
  | int (n : Int) : PyObj
  | str (s : String) : PyObj
  | list (xs : List PyObj) : PyObj
  | dict (kvs : List (String × PyObj)) : PyObj
  | blob (tag : String) : PyObj

/-- Lowercase hexadecimal digit character, as produced by the `"%04x"`
format used by the Python JSON encoder for `\uXXXX` escapes. -/
def hexDigitChar (n : Nat) : Char :=
  if n < 10 then Char.ofNat (48 + n) else Char.ofNat (87 + n)

/-- Four lowercase hex digits of `n`, most significant first (`"%04x" % n`). -/
def hex4 (n : Nat) : List Char :=
  [hexDigitChar (n / 4096 % 16), hexDigitChar (n / 256 % 16),
   hexDigitChar (n / 16 % 16), hexDigitChar (n % 16)]

/-- Escaping of one character exactly as the Python JSON encoder with
`ensure_ascii=True` does: the two-character escapes for `\\`, `"`, and the
control characters with short names; printable ASCII kept as is; every other
character as `\uXXXX`, astral characters as a UTF-16 surrogate pair. -/
def escapeChar (c : Char) : List Char :=
  if c = '\\' then ['\\', '\\']
  else if c = '"' then ['\\', '"']
  else if c = '\n' then ['\\', 'n']
  else if c = '\r' then ['\\', 'r']
  else if c = '\t' then ['\\', 't']
  else if c.toNat = 8 then ['\\', 'b']
  else if c.toNat = 12 then ['\\', 'f']
  else if 0x20 ≤ c.toNat ∧ c.toNat ≤ 0x7e then [c]
  else if c.toNat < 0x10000 then '\\' :: 'u' :: hex4 c.toNat
  else
    ('\\' :: 'u' :: hex4 (0xd800 + (c.toNat - 0x10000) / 0x400)) ++
    ('\\' :: 'u' :: hex4 (0xdc00 + (c.toNat - 0x10000) % 0x400))

/-- JSON escaping of the characters of a string (without the surrounding
quotes). -/
def escapeString (s : List Char) : List Char := (s.map escapeChar).flatten

/-- Reversed decimal digit characters of a natural number, mirroring how
Python `str(int)` renders magnitudes (least significant digit first here;
`printNat` reverses). -/
def natDigitsRev (n : Nat) : List Char :=
  if n < 10 then [Char.ofNat (48 + n)]
  else Char.ofNat (48 + n % 10) :: natDigitsRev (n / 10)
decreasing_by exact Nat.div_lt_self (by omega) (by omega)

/-- Decimal rendering of a natural number, as Python `str(int)`. -/
def printNat (n : Nat) : List Char := (natDigitsRev n).reverse

/-- Decimal rendering of an integer, as Python `str(int)` (and hence as the
JSON encoder renders `int` values). -/
def printInt : Int → List Char
  | .ofNat n => printNat n
  | .negSucc n => '-' :: printNat (n + 1)

mutual
/-- Model of Python `json.dumps` on one value, producing the character list
of the JSON text; `Except.error ()` models the `TypeError` raised on a
non-serializable object. Uses the default separators `", "` and `": "`. -/
def dumpsVal : PyObj → Except Unit (List Char)
  | .null => .ok ['n', 'u', 'l', 'l']
  | .bool true => .ok ['t', 'r', 'u', 'e']
  | .bool false => .ok ['f', 'a', 'l', 's', 'e']
  | .int n => .ok (printInt n)
  | .str s => .ok ('"' :: escapeString s.data ++ ['"'])
  | .list xs =>
    match dumpsElems xs with
    | .ok body => .ok ('[' :: body ++ [']'])
    | .error e => .error e
  | .dict kvs =>
    match dumpsMembers kvs with
    | .ok body => .ok ('{' :: body ++ ['}'])
    | .error e => .error e
  | .blob _ => .error ()

/-- Array elements joined by `", "`. -/
def dumpsElems : List PyObj → Except Unit (List Char)
  | [] => .ok []
  | [x] => dumpsVal x
  | x :: xs =>
    match dumpsVal x, dumpsElems xs with
    | .ok a, .ok b => .ok (a ++ ',' :: ' ' :: b)
    | .error e, _ => .error e
    | _, .error e => .error e

/-- Object members `"key": value` joined by `", "`. -/
def dumpsMembers : List (String × PyObj) → Except Unit (List Char)
  | [] => .ok []
  | [(k, v)] =>
    match dumpsVal v with
    | .ok dv => .ok (('"' :: escapeString k.data ++ ['"']) ++ ':' :: ' ' :: dv)
    | .error e => .error e
  | (k, v) :: kvs =>
    match dumpsVal v, dumpsMembers kvs with
    | .ok dv, .ok rest =>
      .ok ((('"' :: escapeString k.data ++ ['"']) ++ ':' :: ' ' :: dv) ++ ',' :: ' ' :: rest)
    | .error e, _ => .error e
    | _, .error e => .error e
end

/-- Model of Python `json.dumps`: the serialized JSON text of `v`, or
`Except.error ()` for the `TypeError` raised on non-serializable input. -/
def dumps (v : PyObj) : Except Unit String :=
  (dumpsVal v).map fun cs => String.mk cs

/-- JSON whitespace, as skipped by the Python decoder. -/
def isWs (c : Char) : Bool := c = ' ' || c = '\t' || c = '\n' || c = '\r'

/-- Drop leading JSON whitespace. -/
def skipWs : List Char → List Char
  | [] => []
  | c :: rest => if isWs c then skipWs rest else c :: rest

/-- Value of one hexadecimal digit character, if it is one. -/
def hexVal (c : Char) : Option Nat :=
  if '0' ≤ c ∧ c ≤ '9' then some (c.toNat - 48)
  else if 'a' ≤ c ∧ c ≤ 'f' then some (c.toNat - 87)
  else if 'A' ≤ c ∧ c ≤ 'F' then some (c.toNat - 55)
  else none

mutual
/-- Body of a JSON string literal after the opening quote: the decoded
characters up to the closing quote, and the remaining input. Mirrors the
strict-mode Python decoder: two-character escapes, `\uXXXX` escapes with
UTF-16 surrogate-pair combination, raw control characters rejected. -/
def parseStringRest : List Char → Option (List Char × List Char)
  | [] => none
  | c :: rest =>
    if c = '"' then some ([], rest)
    else if c = '\\' then parseEscape rest
    else if c.toNat < 0x20 then none
    else (parseStringRest rest).map fun p => (c :: p.1, p.2)

/-- Input following a backslash inside a JSON string literal. -/
def parseEscape : List Char → Option (List Char × List Char)
  | [] => none
  | c :: rest =>
    if c = '"' then (parseStringRest rest).map fun p => ('"' :: p.1, p.2)
    else if c = '\\' then (parseStringRest rest).map fun p => ('\\' :: p.1, p.2)
    else if c = '/' then (parseStringRest rest).map fun p => ('/' :: p.1, p.2)
    else if c = 'b' then (parseStringRest rest).map fun p => (Char.ofNat 8 :: p.1, p.2)
    else if c = 'f' then (parseStringRest rest).map fun p => (Char.ofNat 12 :: p.1, p.2)
    else if c = 'n' then (parseStringRest rest).map fun p => ('\n' :: p.1, p.2)
    else if c = 'r' then (parseStringRest rest).map fun p => ('\r' :: p.1, p.2)
    else if c = 't' then (parseStringRest rest).map fun p => ('\t' :: p.1, p.2)
    else if c = 'u' then parseU rest
    else none

/-- Input following a `\u` escape: four hex digits, then, for a high
surrogate, the mandatory low-surrogate escape. -/
def parseU : List Char → Option (List Char × List Char)
  | a :: b :: c :: d :: rest =>
    match hexVal a, hexVal b, hexVal c, hexVal d with
    | some ha, some hb, some hc, some hd =>
      let n := ((ha * 16 + hb) * 16 + hc) * 16 + hd
      if 0xd800 ≤ n ∧ n < 0xdc00 then parseLowSurrogate n rest
      else if 0xdc00 ≤ n ∧ n < 0xe000 then none
      else (parseStringRest rest).map fun p => (Char.ofNat n :: p.1, p.2)
    | _, _, _, _ => none
  | _ => none

/-- Input following a high-surrogate escape of value `n`: the matching
low-surrogate escape, combined into one astral character. -/
def parseLowSurrogate (n : Nat) : List Char → Option (List Char × List Char)
  | b1 :: u1 :: e :: f :: g :: h :: rest2 =>
    if b1 = '\\' ∧ u1 = 'u' then
      match hexVal e, hexVal f, hexVal g, hexVal h with
      | some he, some hf, some hg, some hh =>
        let m := ((he * 16 + hf) * 16 + hg) * 16 + hh
        if 0xdc00 ≤ m ∧ m < 0xe000 then
          (parseStringRest rest2).map fun p =>
            (Char.ofNat (0x10000 + (n - 0xd800) * 0x400 + (m - 0xdc00)) :: p.1, p.2)
        else none
      | _, _, _, _ => none
    else none
  | _ => none
end

/-- Longest prefix of decimal digit characters, and the remaining input. -/
def takeDigits : List Char → List Char × List Char
  | [] => ([], [])
  | c :: rest =>
    if c.isDigit then
      let p := takeDigits rest
      (c :: p.1, p.2)
    else ([], c :: rest)

/-- Accumulating decimal value of a list of digit characters. -/
def digitsVal (acc : Nat) : List Char → Nat
  | [] => acc
  | c :: rest => digitsVal (acc * 10 + (c.toNat - 48)) rest

/-- Integer literal parse (after an optional leading minus sign, recorded in
`neg`): requires at least one digit. Fractional and exponent forms are
outside the modelled value domain. -/
def parseNumFrom (neg : Bool) (cs : List Char) : Option (PyObj × List Char) :=
  if (takeDigits cs).1 = [] then none
  else
    some (.int (if neg then -(Int.ofNat (digitsVal 0 (takeDigits cs).1))
                else Int.ofNat (digitsVal 0 (takeDigits cs).1)), (takeDigits cs).2)

/-- Consume an expected literal character sequence (the tail of `null`,
`true`, `false`). -/
def expectChars : List Char → List Char → Option (List Char)
  | [], cs => some cs
  | e :: es, c :: cs => if c = e then expectChars es cs else none
  | _ :: _, [] => none

mutual
/-- Recursive-descent JSON value parser, fuel-indexed to make the recursion
through arrays and objects structural. Mirrors the Python decoder on the
modelled value domain. -/
def parseValue : Nat → List Char → Option (PyObj × List Char)
  | 0, _ => none
  | fuel + 1, cs =>
    match cs with
    | [] => none
    | c :: rest =>
      if c = 'n' then (expectChars ['u', 'l', 'l'] rest).map fun r => (.null, r)
      else if c = 't' then (expectChars ['r', 'u', 'e'] rest).map fun r => (.bool true, r)
      else if c = 'f' then (expectChars ['a', 'l', 's', 'e'] rest).map fun r => (.bool false, r)
      else if c = '"' then (parseStringRest rest).map fun p => (.str (String.mk p.1), p.2)
      else if c = '[' then
        if (skipWs rest).head? = some ']' then some (.list [], (skipWs rest).tail)
        else (parseElems fuel (skipWs rest)).map fun p => (.list p.1, p.2)
      else if c = '{' then
        if (skipWs rest).head? = some '}' then some (.dict [], (skipWs rest).tail)
        else (parseMembers fuel (skipWs rest)).map fun p => (.dict p.1, p.2)
      else if c = '-' then parseNumFrom true rest
      else if c.isDigit then parseNumFrom false (c :: rest)
      else none

/-- One or more array elements separated by `,`, consuming the closing `]`. -/
def parseElems : Nat → List Char → Option (List PyObj × List Char)
  | 0, _ => none
  | fuel + 1, cs =>
    match parseValue fuel cs with
    | none => none
    | some (v, r) =>
      if (skipWs r).head? = some ',' then
        (parseElems fuel (skipWs (skipWs r).tail)).map fun p => (v :: p.1, p.2)
      else if (skipWs r).head? = some ']' then some ([v], (skipWs r).tail)
      else none

/-- One or more object members separated by `,`, consuming the closing `}`. -/
def parseMembers : Nat → List Char → Option (List (String × PyObj) × List Char)
  | 0, _ => none
  | fuel + 1, cs =>
    match cs with
    | [] => none
    | c :: r0 =>
      if c = '"' then
        match parseStringRest r0 with
        | none => none
        | some (k, r1) =>
          if (skipWs r1).head? = some ':' then
            match parseValue fuel (skipWs (skipWs r1).tail) with
            | none => none
            | some (v, r3) =>
              if (skipWs r3).head? = some ',' then
                (parseMembers fuel (skipWs (skipWs r3).tail)).map
                  fun p => ((String.mk k, v) :: p.1, p.2)
              else if (skipWs r3).head? = some '}' then
                some ([(String.mk k, v)], (skipWs r3).tail)
              else none
          else none
      else none
end

/-- Model of Python `json.loads` on a character list: parse one JSON value
surrounded by optional whitespace; `none` models a raised
`json.JSONDecodeError`. -/
def loadsChars (cs : List Char) : Option PyObj :=
  let cs1 := skipWs cs
  match parseValue (cs1.length + 1) cs1 with
  | some (v, rest) => if skipWs rest = [] then some v else none
  | none => none

/-- Model of Python `json.loads`. -/
def loads (s : String) : Option PyObj := loadsChars s.data

/-- Input whose first character, if any, is not a decimal digit. Used to
state where a decimal literal parse is guaranteed to stop. -/
def noDigitHead : List Char → Bool
  | [] => true
  | c :: _ => !c.isDigit

/-! ### Auxiliary lemmas for the JSON round-trip -/

theorem hexVal_hexDigitChar : ∀ k, k < 16 → hexVal (hexDigitChar k) = some k := by decide

theorem isDigit_digitChar : ∀ k, k < 10 → (Char.ofNat (48 + k)).isDigit = true := by decide

theorem toNat_digitChar : ∀ k, k < 10 → (Char.ofNat (48 + k)).toNat = 48 + k := by decide

theorem char_toNat_valid (c : Char) :
    c.toNat < 0xd800 ∨ (0xe000 ≤ c.toNat ∧ c.toNat < 0x110000) := by
  have h := c.valid
  rcases h with h | h
  · exact Or.inl h
  · exact Or.inr h

theorem skipWs_cons_of_not_ws {c : Char} (h : isWs c = false) (t : List Char) :
    skipWs (c :: t) = c :: t := by
  simp [skipWs, h]

theorem natDigitsRev_ne_nil (n : Nat) : natDigitsRev n ≠ [] := by
  unfold natDigitsRev
  split <;> simp

theorem printNat_ne_nil (n : Nat) : printNat n ≠ [] := by
  unfold printNat
  simp [natDigitsRev_ne_nil]

theorem mem_natDigitsRev_isDigit (n : Nat) : ∀ c ∈ natDigitsRev n, c.isDigit = true := by
  induction n using Nat.strong_induction_on with
  | _ n ih =>
    unfold natDigitsRev
    split
    · intro c hc
      rcases List.mem_singleton.mp hc with rfl
      exact isDigit_digitChar n (by omega)
    · intro c hc
      rcases List.mem_cons.mp hc with rfl | hc
      · exact isDigit_digitChar (n % 10) (by omega)
      · exact ih (n / 10) (Nat.div_lt_self (by omega) (by omega)) c hc

theorem mem_printNat_isDigit (n : Nat) : ∀ c ∈ printNat n, c.isDigit = true := by
  intro c hc
  exact mem_natDigitsRev_isDigit n c (List.mem_reverse.mp hc)

theorem digitsVal_cons (acc : Nat) (c : Char) (rest : List Char) :
    digitsVal acc (c :: rest) = digitsVal (acc * 10 + (c.toNat - 48)) rest := rfl

theorem digitsVal_nil (acc : Nat) : digitsVal acc [] = acc := rfl

theorem digitsVal_append (xs ys : List Char) :
    ∀ acc, digitsVal acc (xs ++ ys) = digitsVal (digitsVal acc xs) ys := by
  induction xs with
  | nil => intro acc; rfl
  | cons c t ih =>
    intro acc
    rw [List.cons_append, digitsVal_cons, digitsVal_cons]
    exact ih _

theorem digitsVal_printNat (n : Nat) :
    ∀ acc, digitsVal acc (printNat n) = acc * 10 ^ (natDigitsRev n).length + n := by
  induction n using Nat.strong_induction_on with
  | _ n ih =>
    intro acc
    unfold printNat natDigitsRev
    split
    · rw [List.reverse_singleton, digitsVal_cons, digitsVal_nil, List.length_singleton,
        pow_one, toNat_digitChar n (by omega)]
      omega
    · rw [List.reverse_cons, digitsVal_append]
      have hlt : n / 10 < n := Nat.div_lt_self (by omega) (by omega)
      have h1 := ih (n / 10) hlt acc
      unfold printNat at h1
      rw [h1, digitsVal_cons, digitsVal_nil, toNat_digitChar (n % 10) (by omega),
        List.length_cons, pow_succ, ← mul_assoc]
      generalize acc * 10 ^ (natDigitsRev (n / 10)).length = A
      omega

theorem digitsVal_zero_printNat (n : Nat) : digitsVal 0 (printNat n) = n := by
  have h := digitsVal_printNat n 0
  simpa using h

theorem takeDigits_append (ds rest : List Char) (hds : ∀ c ∈ ds, c.isDigit = true)
    (hrest : noDigitHead rest = true) : takeDigits (ds ++ rest) = (ds, rest) := by
  induction ds with
  | nil =>
    cases rest with
    | nil => rfl
    | cons c t =>
      have : c.isDigit = false := by
        simpa [noDigitHead] using hrest
      simp [takeDigits, this]
  | cons c t ih =>
    have hc : c.isDigit = true := hds c (List.mem_cons_self c t)
    have ih1 := ih (fun x hx => hds x (List.mem_cons_of_mem c hx))
    simp [takeDigits, hc, ih1]

theorem parseNumFrom_printNat (neg : Bool) (n : Nat) (rest : List Char)
    (h : noDigitHead rest = true) :
    parseNumFrom neg (printNat n ++ rest) =
      some (.int (if neg then -(Int.ofNat n) else Int.ofNat n), rest) := by
  unfold parseNumFrom
  rw [takeDigits_append (printNat n) rest (mem_printNat_isDigit n) h]
  rw [if_neg (printNat_ne_nil n), digitsVal_zero_printNat]

theorem escapeString_cons (c : Char) (t : List Char) :
    escapeString (c :: t) = escapeChar c ++ escapeString t := rfl

theorem parseStringRest_cons (c : Char) (rest : List Char) :
    parseStringRest (c :: rest) =
      if c = '"' then some ([], rest)
      else if c = '\\' then parseEscape rest
      else if c.toNat < 0x20 then none
      else (parseStringRest rest).map fun p => (c :: p.1, p.2) := by
  conv_lhs => unfold parseStringRest

theorem parseStringRest_quote (rest : List Char) :
    parseStringRest ('"' :: rest) = some ([], rest) := by
  rw [parseStringRest_cons, if_pos rfl]

theorem parseEscape_cons (c : Char) (rest : List Char) :
    parseEscape (c :: rest) =
      if c = '"' then (parseStringRest rest).map fun p => ('"' :: p.1, p.2)
      else if c = '\\' then (parseStringRest rest).map fun p => ('\\' :: p.1, p.2)
      else if c = '/' then (parseStringRest rest).map fun p => ('/' :: p.1, p.2)
      else if c = 'b' then (parseStringRest rest).map fun p => (Char.ofNat 8 :: p.1, p.2)
      else if c = 'f' then (parseStringRest rest).map fun p => (Char.ofNat 12 :: p.1, p.2)
      else if c = 'n' then (parseStringRest rest).map fun p => ('\n' :: p.1, p.2)
      else if c = 'r' then (parseStringRest rest).map fun p => ('\r' :: p.1, p.2)
      else if c = 't' then (parseStringRest rest).map fun p => ('\t' :: p.1, p.2)
      else if c = 'u' then parseU rest
      else none := by
  conv_lhs => unfold parseEscape

theorem parseStringRest_backslash (u : List Char) :
    parseStringRest ('\\' :: u) = parseEscape u := by
  rw [parseStringRest_cons, if_neg (by decide), if_pos rfl]

theorem parseEscape_u (u : List Char) : parseEscape ('u' :: u) = parseU u := by
  rw [parseEscape_cons, if_neg (by decide), if_neg (by decide), if_neg (by decide),
    if_neg (by decide), if_neg (by decide), if_neg (by decide), if_neg (by decide),
    if_neg (by decide), if_pos rfl]

theorem parseU_step (x1 x2 x3 x4 : Char) (v1 v2 v3 v4 : Nat)
    (h1 : hexVal x1 = some v1) (h2 : hexVal x2 = some v2)
    (h3 : hexVal x3 = some v3) (h4 : hexVal x4 = some v4) (rest : List Char) :
    parseU (x1 :: x2 :: x3 :: x4 :: rest) =
      if 0xd800 ≤ ((v1 * 16 + v2) * 16 + v3) * 16 + v4 ∧
          ((v1 * 16 + v2) * 16 + v3) * 16 + v4 < 0xdc00 then
        parseLowSurrogate (((v1 * 16 + v2) * 16 + v3) * 16 + v4) rest
      else if 0xdc00 ≤ ((v1 * 16 + v2) * 16 + v3) * 16 + v4 ∧
          ((v1 * 16 + v2) * 16 + v3) * 16 + v4 < 0xe000 then none
      else (parseStringRest rest).map fun p =>
        (Char.ofNat (((v1 * 16 + v2) * 16 + v3) * 16 + v4) :: p.1, p.2) := by
  conv_lhs => unfold parseU
  rw [h1, h2, h3, h4]

theorem parseLowSurrogate_step (n : Nat) (e f g h : Char) (ve vf vg vh : Nat)
    (he : hexVal e = some ve) (hf : hexVal f = some vf)
    (hg : hexVal g = some vg) (hh : hexVal h = some vh) (rest2 : List Char) :
    parseLowSurrogate n ('\\' :: 'u' :: e :: f :: g :: h :: rest2) =
      if 0xdc00 ≤ ((ve * 16 + vf) * 16 + vg) * 16 + vh ∧
          ((ve * 16 + vf) * 16 + vg) * 16 + vh < 0xe000 then
        (parseStringRest rest2).map fun p =>
          (Char.ofNat (0x10000 + (n - 0xd800) * 0x400 +
            (((ve * 16 + vf) * 16 + vg) * 16 + vh - 0xdc00)) :: p.1, p.2)
      else none := by
  conv_lhs => unfold parseLowSurrogate
  rw [if_pos ⟨rfl, rfl⟩, he, hf, hg, hh]

theorem hex4_cons (n : Nat) (rest : List Char) :
    hex4 n ++ rest = hexDigitChar (n / 4096 % 16) :: hexDigitChar (n / 256 % 16) ::
      hexDigitChar (n / 16 % 16) :: hexDigitChar (n % 16) :: rest := rfl

theorem parseU_hex (n : Nat) (h1 : n < 0x10000) (h2 : n < 0xd800 ∨ 0xe000 ≤ n)
    (rest : List Char) :
    parseU (hex4 n ++ rest) = (parseStringRest rest).map fun p => (Char.ofNat n :: p.1, p.2) := by
  have b1 : n / 4096 % 16 < 16 := Nat.mod_lt _ (by omega)
  have b2 : n / 256 % 16 < 16 := Nat.mod_lt _ (by omega)
  have b3 : n / 16 % 16 < 16 := Nat.mod_lt _ (by omega)
  have b4 : n % 16 < 16 := Nat.mod_lt _ (by omega)
  rw [hex4_cons, parseU_step _ _ _ _ _ _ _ _ (hexVal_hexDigitChar _ b1)
    (hexVal_hexDigitChar _ b2) (hexVal_hexDigitChar _ b3) (hexVal_hexDigitChar _ b4) rest]
  have e : ((n / 4096 % 16 * 16 + n / 256 % 16) * 16 + n / 16 % 16) * 16 + n % 16 = n := by
    omega
  rw [e, if_neg (by omega), if_neg (by omega)]

theorem parseU_astral (c : Char) (hc : 0x10000 ≤ c.toNat) (rest : List Char) :
    parseU (hex4 (0xd800 + (c.toNat - 0x10000) / 0x400) ++
      ('\\' :: 'u' :: (hex4 (0xdc00 + (c.toNat - 0x10000) % 0x400) ++ rest))) =
      (parseStringRest rest).map fun p => (c :: p.1, p.2) := by
  have hv := char_toNat_valid c
  have hq : (c.toNat - 0x10000) / 0x400 < 0x400 := by omega
  have hr : (c.toNat - 0x10000) % 0x400 < 0x400 := Nat.mod_lt _ (by omega)
  set n := 0xd800 + (c.toNat - 0x10000) / 0x400 with hn
  set m := 0xdc00 + (c.toNat - 0x10000) % 0x400 with hm
  have b1 : n / 4096 % 16 < 16 := Nat.mod_lt _ (by omega)
  have b2 : n / 256 % 16 < 16 := Nat.mod_lt _ (by omega)
  have b3 : n / 16 % 16 < 16 := Nat.mod_lt _ (by omega)
  have b4 : n % 16 < 16 := Nat.mod_lt _ (by omega)
  have c1 : m / 4096 % 16 < 16 := Nat.mod_lt _ (by omega)
  have c2 : m / 256 % 16 < 16 := Nat.mod_lt _ (by omega)
  have c3 : m / 16 % 16 < 16 := Nat.mod_lt _ (by omega)
  have c4 : m % 16 < 16 := Nat.mod_lt _ (by omega)
  rw [hex4_cons, parseU_step _ _ _ _ _ _ _ _ (hexVal_hexDigitChar _ b1)
    (hexVal_hexDigitChar _ b2) (hexVal_hexDigitChar _ b3) (hexVal_hexDigitChar _ b4)]
  have e : ((n / 4096 % 16 * 16 + n / 256 % 16) * 16 + n / 16 % 16) * 16 + n % 16 = n := by
    omega
  rw [e, if_pos (by omega)]
  rw [hex4_cons, parseLowSurrogate_step n _ _ _ _ _ _ _ _ (hexVal_hexDigitChar _ c1)
    (hexVal_hexDigitChar _ c2) (hexVal_hexDigitChar _ c3) (hexVal_hexDigitChar _ c4) rest]
  have e2 : ((m / 4096 % 16 * 16 + m / 256 % 16) * 16 + m / 16 % 16) * 16 + m % 16 = m := by
    omega
  rw [e2, if_pos (by omega)]
  have e3 : 0x10000 + (n - 0xd800) * 0x400 + (m - 0xdc00) = c.toNat := by
    rw [hn, hm]
    omega
  rw [e3, Char.ofNat_toNat]

theorem parseStringRest_escapeChar (c : Char) (u : List Char) :
    parseStringRest (escapeChar c ++ u) = (parseStringRest u).map fun p => (c :: p.1, p.2) := by
  have hv := char_toNat_valid c
  unfold escapeChar
  split_ifs with h1 h2 h3 h4 h5 h6 h7 h8 h9
  · subst h1
    rw [List.cons_append, List.cons_append, List.nil_append, parseStringRest_backslash,
      parseEscape_cons, if_neg (by decide), if_pos rfl]
  · subst h2
    rw [List.cons_append, List.cons_append, List.nil_append, parseStringRest_backslash,
      parseEscape_cons, if_pos rfl]
  · subst h3
    rw [List.cons_append, List.cons_append, List.nil_append, parseStringRest_backslash,
      parseEscape_cons, if_neg (by decide), if_neg (by decide), if_neg (by decide),
      if_neg (by decide), if_neg (by decide), if_pos rfl]
  · subst h4
    rw [List.cons_append, List.cons_append, List.nil_append, parseStringRest_backslash,
      parseEscape_cons, if_neg (by decide), if_neg (by decide), if_neg (by decide),
      if_neg (by decide), if_neg (by decide), if_neg (by decide), if_pos rfl]
  · subst h5
    rw [List.cons_append, List.cons_append, List.nil_append, parseStringRest_backslash,
      parseEscape_cons, if_neg (by decide), if_neg (by decide), if_neg (by decide),
      if_neg (by decide), if_neg (by decide), if_neg (by decide), if_neg (by decide),
      if_pos rfl]
  · have hc : c = Char.ofNat 8 := by
      rw [← h6, Char.ofNat_toNat]
    rw [List.cons_append, List.cons_append, List.nil_append, parseStringRest_backslash,
      parseEscape_cons, if_neg (by decide), if_neg (by decide), if_neg (by decide),
      if_pos rfl, ← hc]
  · have hc : c = Char.ofNat 12 := by
      rw [← h7, Char.ofNat_toNat]
    rw [List.cons_append, List.cons_append, List.nil_append, parseStringRest_backslash,
      parseEscape_cons, if_neg (by decide), if_neg (by decide), if_neg (by decide),
      if_neg (by decide), if_pos rfl, ← hc]
  · rw [List.cons_append, List.nil_append, parseStringRest_cons, if_neg h2, if_neg h1,
      if_neg (by omega)]
  · rw [List.cons_append, List.cons_append, parseStringRest_backslash, parseEscape_u]
    rw [parseU_hex c.toNat h9 (by omega) u, Char.ofNat_toNat]
  · simp only [List.cons_append, List.nil_append, List.append_assoc]
    rw [parseStringRest_backslash, parseEscape_u]
    exact parseU_astral c (by omega) u

theorem parseStringRest_escapeString (s rest : List Char) :
    parseStringRest (escapeString s ++ '"' :: rest) = some (s, rest) := by
  induction s with
  | nil =>
    show parseStringRest (([] : List Char) ++ '"' :: rest) = some ([], rest)
    rw [List.nil_append, parseStringRest_quote]
  | cons c t ih =>
    rw [escapeString_cons, List.append_assoc, parseStringRest_escapeChar, ih]
    rfl

/-! ### Fuel accounting for the value parser -/

mutual
/-- Fuel sufficient for `parseValue` to parse the serialization of `v`. -/
def need : PyObj → Nat
  | .list xs => needElems xs + 1
  | .dict kvs => needMembers kvs + 1
  | _ => 1

/-- Fuel sufficient for `parseElems` on the serialized elements. -/
def needElems : List PyObj → Nat
  | [] => 0
  | x :: xs => max (need x) (needElems xs) + 1

/-- Fuel sufficient for `parseMembers` on the serialized members. -/
def needMembers : List (String × PyObj) → Nat
  | [] => 0
  | (_, v) :: kvs => max (need v) (needMembers kvs) + 1
end

theorem need_pos (v : PyObj) : 1 ≤ need v := by
  cases v <;> simp [need]

/-! ### First characters of serialized values -/

/-- Characters that can start the serialization of a value. None of them is
whitespace, `]`, `}` or `,`, which is what makes the grammar parsable
without lookahead. -/
def goodHeadChar (c : Char) : Prop :=
  c = 'n' ∨ c = 't' ∨ c = 'f' ∨ c = '"' ∨ c = '[' ∨ c = '{' ∨ c = '-' ∨ c.isDigit = true

theorem isDigit_ne (c : Char) (h : c.isDigit = true) :
    c ≠ 'n' ∧ c ≠ 't' ∧ c ≠ 'f' ∧ c ≠ '"' ∧ c ≠ '[' ∧ c ≠ '{' ∧ c ≠ '-' := by
  refine ⟨?_, ?_, ?_, ?_, ?_, ?_, ?_⟩ <;> intro e <;> subst e <;> exact absurd h (by decide)

theorem goodHead_not_ws (c : Char) (h : goodHeadChar c) : isWs c = false := by
  rcases h with rfl | rfl | rfl | rfl | rfl | rfl | rfl | hd
  · decide
  · decide
  · decide
  · decide
  · decide
  · decide
  · decide
  · by_contra hw
    rw [Bool.not_eq_false] at hw
    simp only [isWs, Bool.or_eq_true, decide_eq_true_eq] at hw
    rcases hw with ((rfl | rfl) | rfl) | rfl <;> exact absurd hd (by decide)

theorem goodHead_ne_rbracket (c : Char) (h : goodHeadChar c) : c ≠ ']' := by
  intro e
  subst e
  rcases h with h | h | h | h | h | h | h | h <;> exact absurd h (by decide)

theorem goodHead_ne_rbrace (c : Char) (h : goodHeadChar c) : c ≠ '}' := by
  intro e
  subst e
  rcases h with h | h | h | h | h | h | h | h <;> exact absurd h (by decide)

theorem goodHead_ne_comma (c : Char) (h : goodHeadChar c) : c ≠ ',' := by
  intro e
  subst e
  rcases h with h | h | h | h | h | h | h | h <;> exact absurd h (by decide)

theorem skipWs_goodHead {c : Char} (h : goodHeadChar c) (t : List Char) :
    skipWs (c :: t) = c :: t :=
  skipWs_cons_of_not_ws (goodHead_not_ws c h) t

theorem dumpsVal_head (v : PyObj) (s : List Char) (hd : dumpsVal v = .ok s) :
    ∃ c t, s = c :: t ∧ goodHeadChar c := by
  cases v with
  | null =>
    simp only [dumpsVal, Except.ok.injEq] at hd
    exact ⟨'n', _, hd.symm, Or.inl rfl⟩
  | bool b =>
    cases b <;> simp only [dumpsVal, Except.ok.injEq] at hd
    · exact ⟨'f', _, hd.symm, Or.inr (Or.inr (Or.inl rfl))⟩
    · exact ⟨'t', _, hd.symm, Or.inr (Or.inl rfl)⟩
  | int n =>
    cases n with
    | ofNat m =>
      simp only [dumpsVal, printInt, Except.ok.injEq] at hd
      rcases hp : printNat m with _ | ⟨c, t⟩
      · exact absurd hp (printNat_ne_nil m)
      · refine ⟨c, t, by rw [← hd, hp], ?_⟩
        have : c ∈ printNat m := by
          rw [hp]
          exact List.mem_cons_self c t
        exact Or.inr (Or.inr (Or.inr (Or.inr (Or.inr (Or.inr (Or.inr
          (mem_printNat_isDigit m c this)))))))
    | negSucc m =>
      simp only [dumpsVal, printInt, Except.ok.injEq] at hd
      exact ⟨'-', _, hd.symm, Or.inr (Or.inr (Or.inr (Or.inr (Or.inr (Or.inr
        (Or.inl rfl))))))⟩
  | str s0 =>
    simp only [dumpsVal, Except.ok.injEq] at hd
    exact ⟨'"', _, hd.symm, Or.inr (Or.inr (Or.inr (Or.inl rfl)))⟩
  | list xs =>
    rcases hb : dumpsElems xs with e | body
    · simp only [dumpsVal, hb] at hd
      exact Except.noConfusion hd
    · simp only [dumpsVal, hb, Except.ok.injEq] at hd
      exact ⟨'[', body ++ [']'], hd.symm, Or.inr (Or.inr (Or.inr (Or.inr (Or.inl rfl))))⟩
  | dict kvs =>
    rcases hb : dumpsMembers kvs with e | body
    · simp only [dumpsVal, hb] at hd
      exact Except.noConfusion hd
    · simp only [dumpsVal, hb, Except.ok.injEq] at hd
      exact ⟨'{', body ++ ['}'], hd.symm, Or.inr (Or.inr (Or.inr (Or.inr (Or.inr
        (Or.inl rfl)))))⟩
  | blob tag =>
    simp only [dumpsVal] at hd
    exact Except.noConfusion hd

theorem dumpsElems_head (xs : List PyObj) (s : List Char) (hne : xs ≠ [])
    (hd : dumpsElems xs = .ok s) : ∃ c t, s = c :: t ∧ goodHeadChar c := by
  rcases xs with _ | ⟨x, _ | ⟨y, ys⟩⟩
  · exact absurd rfl hne
  · simp only [dumpsElems] at hd
    exact dumpsVal_head x s hd
  · rcases ha : dumpsVal x with e | a
    · simp only [dumpsElems, ha] at hd
      exact Except.noConfusion hd
    · rcases hb : dumpsElems (y :: ys) with e | b
      · simp only [dumpsElems, ha, hb] at hd
        exact Except.noConfusion hd
      · simp only [dumpsElems, ha, hb, Except.ok.injEq] at hd
        rcases dumpsVal_head x a ha with ⟨c, t, rfl, hg⟩
        exact ⟨c, t ++ ',' :: ' ' :: b, by rw [← hd]; rfl, hg⟩

theorem dumpsMembers_head (kvs : List (String × PyObj)) (s : List Char) (hne : kvs ≠ [])
    (hd : dumpsMembers kvs = .ok s) : ∃ t, s = '"' :: t := by
  rcases kvs with _ | ⟨⟨k, v⟩, _ | ⟨⟨k2, v2⟩, kvs2⟩⟩
  · exact absurd rfl hne
  · rcases ha : dumpsVal v with e | dv
    · simp only [dumpsMembers, ha] at hd
      exact Except.noConfusion hd
    · simp only [dumpsMembers, ha, Except.ok.injEq] at hd
      exact ⟨_, by rw [← hd]; rfl⟩
  · rcases ha : dumpsVal v with e | dv
    · simp only [dumpsMembers, ha] at hd
      exact Except.noConfusion hd
    · rcases hb : dumpsMembers ((k2, v2) :: kvs2) with e | rest
      · simp only [dumpsMembers, ha, hb] at hd
        exact Except.noConfusion hd
      · simp only [dumpsMembers, ha, hb, Except.ok.injEq] at hd
        exact ⟨_, by rw [← hd]; rfl⟩

/-! ### Length bounds giving sufficient fuel -/

mutual
theorem need_le (v : PyObj) (s : List Char) (hd : dumpsVal v = .ok s) :
    need v ≤ s.length := by
  cases v with
  | list xs =>
    rcases xs with _ | ⟨x, xs⟩
    · have : dumpsElems ([] : List PyObj) = .ok [] := rfl
      simp only [dumpsVal, this, Except.ok.injEq] at hd
      rw [← hd]
      simp [need, needElems]
    · rcases hb : dumpsElems (x :: xs) with e | body
      · simp only [dumpsVal, hb] at hd
        exact Except.noConfusion hd
      · simp only [dumpsVal, hb, Except.ok.injEq] at hd
        have h1 := needElems_le (x :: xs) body (List.cons_ne_nil x xs) hb
        rw [← hd]
        simp only [need, List.length_cons, List.length_append, List.length_singleton]
        omega
  | dict kvs =>
    rcases kvs with _ | ⟨kv, kvs⟩
    · have : dumpsMembers ([] : List (String × PyObj)) = .ok [] := rfl
      simp only [dumpsVal, this, Except.ok.injEq] at hd
      rw [← hd]
      simp [need, needMembers]
    · rcases hb : dumpsMembers (kv :: kvs) with e | body
      · simp only [dumpsVal, hb] at hd
        exact Except.noConfusion hd
      · simp only [dumpsVal, hb, Except.ok.injEq] at hd
        have h1 := needMembers_le (kv :: kvs) body (List.cons_ne_nil kv kvs) hb
        rw [← hd]
        simp only [need, List.length_cons, List.length_append, List.length_singleton]
        omega
  | null =>
    rcases dumpsVal_head _ s hd with ⟨c, t, rfl, _⟩
    simp [need]
  | bool b =>
    rcases dumpsVal_head _ s hd with ⟨c, t, rfl, _⟩
    simp [need]
  | int n =>
    rcases dumpsVal_head _ s hd with ⟨c, t, rfl, _⟩
    simp [need]
  | str s0 =>
    rcases dumpsVal_head _ s hd with ⟨c, t, rfl, _⟩
    simp [need]
  | blob tag =>
    simp only [dumpsVal] at hd
    exact Except.noConfusion hd

theorem needElems_le (xs : List PyObj) (s : List Char) (hne : xs ≠ [])
    (hd : dumpsElems xs = .ok s) : needElems xs ≤ s.length + 1 := by
  rcases xs with _ | ⟨x, _ | ⟨y, ys⟩⟩
  · exact absurd rfl hne
  · simp only [dumpsElems] at hd
    have h1 := need_le x s hd
    simp only [needElems]
    omega
  · rcases ha : dumpsVal x with e | a
    · simp only [dumpsElems, ha] at hd
      exact Except.noConfusion hd
    · rcases hb : dumpsElems (y :: ys) with e | b
      · simp only [dumpsElems, ha, hb] at hd
        exact Except.noConfusion hd
      · simp only [dumpsElems, ha, hb, Except.ok.injEq] at hd
        have h1 := need_le x a ha
        have h2 := needElems_le (y :: ys) b (List.cons_ne_nil y ys) hb
        simp only [needElems] at h2 ⊢
        rw [← hd]
        simp only [List.length_append, List.length_cons]
        omega

theorem needMembers_le (kvs : List (String × PyObj)) (s : List Char) (hne : kvs ≠ [])
    (hd : dumpsMembers kvs = .ok s) : needMembers kvs ≤ s.length + 1 := by
  rcases kvs with _ | ⟨⟨k, v⟩, _ | ⟨⟨k2, v2⟩, kvs2⟩⟩
  · exact absurd rfl hne
  · rcases ha : dumpsVal v with e | dv
    · simp only [dumpsMembers, ha] at hd
      exact Except.noConfusion hd
    · simp only [dumpsMembers, ha, Except.ok.injEq] at hd
      have h1 := need_le v dv ha
      simp only [needMembers]
      rw [← hd]
      simp only [List.length_append, List.length_cons]
      omega
  · rcases ha : dumpsVal v with e | dv
    · simp only [dumpsMembers, ha] at hd
      exact Except.noConfusion hd
    · rcases hb : dumpsMembers ((k2, v2) :: kvs2) with e | rest
      · simp only [dumpsMembers, ha, hb] at hd
        exact Except.noConfusion hd
      · simp only [dumpsMembers, ha, hb, Except.ok.injEq] at hd
        have h1 := need_le v dv ha
        have h2 := needMembers_le ((k2, v2) :: kvs2) rest
          (List.cons_ne_nil (k2, v2) kvs2) hb
        simp only [needMembers] at h2 ⊢
        rw [← hd]
        simp only [List.length_append, List.length_cons]
        omega
end

/-! ### Unfolding and small-step lemmas for the value parser -/

theorem expectChars_self (es rest : List Char) :
    expectChars es (es ++ rest) = some rest := by
  induction es with
  | nil => rfl
  | cons e t ih =>
    show expectChars (e :: t) (e :: (t ++ rest)) = some rest
    simp only [expectChars, if_pos rfl]
    exact ih

theorem parseValue_succ (fuel : Nat) (c : Char) (rest : List Char) :
    parseValue (fuel + 1) (c :: rest) =
      if c = 'n' then (expectChars ['u', 'l', 'l'] rest).map fun r => (.null, r)
      else if c = 't' then (expectChars ['r', 'u', 'e'] rest).map fun r => (.bool true, r)
      else if c = 'f' then (expectChars ['a', 'l', 's', 'e'] rest).map fun r => (.bool false, r)
      else if c = '"' then (parseStringRest rest).map fun p => (.str (String.mk p.1), p.2)
      else if c = '[' then
        if (skipWs rest).head? = some ']' then some (.list [], (skipWs rest).tail)
        else (parseElems fuel (skipWs rest)).map fun p => (.list p.1, p.2)
      else if c = '{' then
        if (skipWs rest).head? = some '}' then some (.dict [], (skipWs rest).tail)
        else (parseMembers fuel (skipWs rest)).map fun p => (.dict p.1, p.2)
      else if c = '-' then parseNumFrom true rest
      else if c.isDigit then parseNumFrom false (c :: rest)
      else none := by
  conv_lhs => unfold parseValue

theorem parseElems_succ (fuel : Nat) (cs : List Char) :
    parseElems (fuel + 1) cs =
      match parseValue fuel cs with
      | none => none
      | some (v, r) =>
        if (skipWs r).head? = some ',' then
          (parseElems fuel (skipWs (skipWs r).tail)).map fun p => (v :: p.1, p.2)
        else if (skipWs r).head? = some ']' then some ([v], (skipWs r).tail)
        else none := by
  conv_lhs => unfold parseElems

theorem parseMembers_succ (fuel : Nat) (c : Char) (r0 : List Char) :
    parseMembers (fuel + 1) (c :: r0) =
      if c = '"' then
        match parseStringRest r0 with
        | none => none
        | some (k, r1) =>
          if (skipWs r1).head? = some ':' then
            match parseValue fuel (skipWs (skipWs r1).tail) with
            | none => none
            | some (v, r3) =>
              if (skipWs r3).head? = some ',' then
                (parseMembers fuel (skipWs (skipWs r3).tail)).map
                  fun p => ((String.mk k, v) :: p.1, p.2)
              else if (skipWs r3).head? = some '}' then
                some ([(String.mk k, v)], (skipWs r3).tail)
              else none
          else none
      else none := by
  conv_lhs => unfold parseMembers

theorem skipWs_cons_ws {c : Char} (h : isWs c = true) (t : List Char) :
    skipWs (c :: t) = skipWs t := by
  simp [skipWs, h]

mutual
theorem parseValue_dumps (v : PyObj) (s rest : List Char) (fuel : Nat)
    (hd : dumpsVal v = .ok s) (hf : need v ≤ fuel) (hrest : noDigitHead rest = true) :
    parseValue fuel (s ++ rest) = some (v, rest) := by
  have hp := need_pos v
  rcases fuel with _ | f
  · omega
  cases v with
  | null =>
    simp only [dumpsVal, Except.ok.injEq] at hd
    rw [← hd]
    simp only [List.cons_append, List.nil_append]
    rw [parseValue_succ, if_pos rfl]
    have h1 : expectChars ['u', 'l', 'l'] ('u' :: 'l' :: 'l' :: rest) = some rest :=
      expectChars_self ['u', 'l', 'l'] rest
    rw [h1]
    rfl
  | bool b =>
    cases b
    · simp only [dumpsVal, Except.ok.injEq] at hd
      rw [← hd]
      simp only [List.cons_append, List.nil_append]
      rw [parseValue_succ, if_neg (by decide), if_neg (by decide), if_pos rfl]
      have h1 : expectChars ['a', 'l', 's', 'e'] ('a' :: 'l' :: 's' :: 'e' :: rest) = some rest :=
        expectChars_self ['a', 'l', 's', 'e'] rest
      rw [h1]
      rfl
    · simp only [dumpsVal, Except.ok.injEq] at hd
      rw [← hd]
      simp only [List.cons_append, List.nil_append]
      rw [parseValue_succ, if_neg (by decide), if_pos rfl]
      have h1 : expectChars ['r', 'u', 'e'] ('r' :: 'u' :: 'e' :: rest) = some rest :=
        expectChars_self ['r', 'u', 'e'] rest
      rw [h1]
      rfl
  | int n =>
    cases n with
    | ofNat m =>
      simp only [dumpsVal, printInt, Except.ok.injEq] at hd
      rw [← hd]
      rcases hp2 : printNat m with _ | ⟨c, t⟩
      · exact absurd hp2 (printNat_ne_nil m)
      have hcd : c.isDigit = true := by
        apply mem_printNat_isDigit m
        rw [hp2]
        exact List.mem_cons_self c t
      obtain ⟨e1, e2, e3, e4, e5, e6, e7⟩ := isDigit_ne c hcd
      rw [List.cons_append, parseValue_succ, if_neg e1, if_neg e2, if_neg e3,
        if_neg e4, if_neg e5, if_neg e6, if_neg e7, if_pos hcd]
      have h2 : c :: (t ++ rest) = printNat m ++ rest := by
        rw [hp2]
        rfl
      rw [h2, parseNumFrom_printNat false m rest hrest]
      rfl
    | negSucc m =>
      simp only [dumpsVal, printInt, Except.ok.injEq] at hd
      rw [← hd]
      rw [List.cons_append, parseValue_succ, if_neg (by decide), if_neg (by decide),
        if_neg (by decide), if_neg (by decide), if_neg (by decide), if_neg (by decide),
        if_pos rfl]
      rw [parseNumFrom_printNat true (m + 1) rest hrest]
      have e : -(Int.ofNat (m + 1)) = Int.negSucc m := by
        rw [Int.negSucc_eq]
        simp
      simp [e]
      rw [Int.negSucc_eq]
      ring
  | str s0 =>
    simp only [dumpsVal, Except.ok.injEq] at hd
    rw [← hd]
    simp only [List.cons_append, List.append_assoc, List.singleton_append, List.nil_append]
    rw [parseValue_succ, if_neg (by decide), if_neg (by decide), if_neg (by decide),
      if_pos rfl, parseStringRest_escapeString]
    rfl
  | list xs =>
    rcases xs with _ | ⟨x, xs⟩
    · have hnil : dumpsElems ([] : List PyObj) = .ok [] := rfl
      simp only [dumpsVal, hnil, Except.ok.injEq] at hd
      rw [← hd]
      simp only [List.cons_append, List.nil_append]
      rw [parseValue_succ, if_neg (by decide), if_neg (by decide), if_neg (by decide),
        if_neg (by decide), if_pos rfl]
      rw [skipWs_cons_of_not_ws (by decide)]
      rw [if_pos (show ((']' :: rest).head? = some ']') from rfl)]
      rfl
    · rcases hb : dumpsElems (x :: xs) with e | body
      · simp only [dumpsVal, hb] at hd
        exact Except.noConfusion hd
      · simp only [dumpsVal, hb, Except.ok.injEq] at hd
        rw [← hd]
        rcases dumpsElems_head (x :: xs) body (List.cons_ne_nil x xs) hb with ⟨c, t, rfl, hg⟩
        simp only [List.cons_append, List.append_assoc, List.singleton_append, List.nil_append]
        rw [parseValue_succ, if_neg (by decide), if_neg (by decide), if_neg (by decide),
          if_neg (by decide), if_pos rfl]
        rw [skipWs_goodHead hg]
        rw [if_neg (show ¬ ((c :: (t ++ ']' :: rest)).head? = some ']') from by
          simp only [List.head?_cons, Option.some.injEq]
          exact goodHead_ne_rbracket c hg)]
        have hfe : needElems (x :: xs) ≤ f := by
          simp only [need] at hf
          omega
        have IH := parseElems_dumps (x :: xs) (c :: t) rest f (List.cons_ne_nil x xs) hb hfe
        simp only [List.cons_append] at IH
        rw [IH]
        rfl
  | dict kvs =>
    rcases kvs with _ | ⟨kv, kvs⟩
    · have hnil : dumpsMembers ([] : List (String × PyObj)) = .ok [] := rfl
      simp only [dumpsVal, hnil, Except.ok.injEq] at hd
      rw [← hd]
      simp only [List.cons_append, List.nil_append]
      rw [parseValue_succ, if_neg (by decide), if_neg (by decide), if_neg (by decide),
        if_neg (by decide), if_neg (by decide), if_pos rfl]
      rw [skipWs_cons_of_not_ws (by decide)]
      rw [if_pos (show (('}' :: rest).head? = some '}') from rfl)]
      rfl
    · rcases hb : dumpsMembers (kv :: kvs) with e | body
      · simp only [dumpsVal, hb] at hd
        exact Except.noConfusion hd
      · simp only [dumpsVal, hb, Except.ok.injEq] at hd
        rw [← hd]
        rcases dumpsMembers_head (kv :: kvs) body (List.cons_ne_nil kv kvs) hb with ⟨t, rfl⟩
        simp only [List.cons_append, List.append_assoc, List.singleton_append, List.nil_append]
        rw [parseValue_succ, if_neg (by decide), if_neg (by decide), if_neg (by decide),
          if_neg (by decide), if_neg (by decide), if_pos rfl]
        rw [skipWs_cons_of_not_ws (by decide)]
        rw [if_neg (show ¬ (('"' :: (t ++ '}' :: rest)).head? = some '}') from by simp)]
        have hfm : needMembers (kv :: kvs) ≤ f := by
          simp only [need] at hf
          omega
        have IH := parseMembers_dumps (kv :: kvs) ('"' :: t) rest f
          (List.cons_ne_nil kv kvs) hb hfm
        simp only [List.cons_append] at IH
        rw [IH]
        rfl
  | blob tag =>
    simp only [dumpsVal] at hd
    exact Except.noConfusion hd

theorem parseElems_dumps (xs : List PyObj) (s rest : List Char) (fuel : Nat)
    (hne : xs ≠ []) (hd : dumpsElems xs = .ok s) (hf : needElems xs ≤ fuel) :
    parseElems fuel (s ++ ']' :: rest) = some (xs, rest) := by
  rcases xs with _ | ⟨x, xs⟩
  · exact absurd rfl hne
  have hf1 : 1 ≤ needElems (x :: xs) := by
    simp only [needElems]
    omega
  rcases fuel with _ | f
  · omega
  rcases xs with _ | ⟨y, ys⟩
  · have hdx : dumpsVal x = .ok s := by
      simpa only [dumpsElems] using hd
    rw [parseElems_succ]
    have hfx : need x ≤ f := by
      simp only [needElems] at hf
      omega
    rw [parseValue_dumps x s (']' :: rest) f hdx hfx rfl]
    dsimp only
    rw [skipWs_cons_of_not_ws (by decide)]
    rw [if_neg (show ¬ ((']' :: rest).head? = some ',') from by simp),
      if_pos (show ((']' :: rest).head? = some ']') from rfl)]
    rfl
  · rcases ha : dumpsVal x with e | a
    · simp only [dumpsElems, ha] at hd
      exact Except.noConfusion hd
    rcases hb : dumpsElems (y :: ys) with e | b
    · simp only [dumpsElems, ha, hb] at hd
      exact Except.noConfusion hd
    simp only [dumpsElems, ha, hb, Except.ok.injEq] at hd
    rw [← hd]
    simp only [List.append_assoc, List.cons_append]
    rw [parseElems_succ]
    have hfx : need x ≤ f := by
      simp only [needElems] at hf
      omega
    have hfb : needElems (y :: ys) ≤ f := by
      simp only [needElems] at hf ⊢
      omega
    rw [parseValue_dumps x a (',' :: ' ' :: (b ++ ']' :: rest)) f ha hfx rfl]
    dsimp only
    rw [skipWs_cons_of_not_ws (by decide)]
    rw [if_pos (show ((',' :: ' ' :: (b ++ ']' :: rest)).head? = some ',') from rfl)]
    rw [show ((',' :: ' ' :: (b ++ ']' :: rest)).tail) = ' ' :: (b ++ ']' :: rest) from rfl]
    rw [skipWs_cons_ws (by decide)]
    rcases dumpsElems_head (y :: ys) b (List.cons_ne_nil y ys) hb with ⟨c2, t2, rfl, hg2⟩
    simp only [List.cons_append]
    rw [skipWs_goodHead hg2]
    have IH := parseElems_dumps (y :: ys) (c2 :: t2) rest f (List.cons_ne_nil y ys) hb hfb
    simp only [List.cons_append] at IH
    rw [IH]
    rfl

theorem parseMembers_dumps (kvs : List (String × PyObj)) (s rest : List Char) (fuel : Nat)
    (hne : kvs ≠ []) (hd : dumpsMembers kvs = .ok s) (hf : needMembers kvs ≤ fuel) :
    parseMembers fuel (s ++ '}' :: rest) = some (kvs, rest) := by
  rcases kvs with _ | ⟨⟨k, v⟩, kvs⟩
  · exact absurd rfl hne
  have hf1 : 1 ≤ needMembers ((k, v) :: kvs) := by
    simp only [needMembers]
    omega
  rcases fuel with _ | f
  · omega
  rcases kvs with _ | ⟨⟨k2, v2⟩, kvs2⟩
  · rcases ha : dumpsVal v with e | dv
    · simp only [dumpsMembers, ha] at hd
      exact Except.noConfusion hd
    simp only [dumpsMembers, ha, Except.ok.injEq] at hd
    rw [← hd]
    simp only [List.cons_append, List.append_assoc, List.singleton_append, List.nil_append]
    rw [parseMembers_succ, if_pos rfl]
    rw [parseStringRest_escapeString k.data (':' :: ' ' :: (dv ++ '}' :: rest))]
    dsimp only
    rw [skipWs_cons_of_not_ws (by decide)]
    rw [if_pos (show ((':' :: ' ' :: (dv ++ '}' :: rest)).head? = some ':') from rfl)]
    rw [show ((':' :: ' ' :: (dv ++ '}' :: rest)).tail) = ' ' :: (dv ++ '}' :: rest) from rfl]
    rw [skipWs_cons_ws (by decide)]
    rcases dumpsVal_head v dv ha with ⟨c2, t2, rfl, hg2⟩
    simp only [List.cons_append]
    rw [skipWs_goodHead hg2]
    have hfv : need v ≤ f := by
      simp only [needMembers] at hf
      omega
    have IH := parseValue_dumps v (c2 :: t2) ('}' :: rest) f ha hfv rfl
    simp only [List.cons_append] at IH
    rw [IH]
    dsimp only
    rw [skipWs_cons_of_not_ws (by decide)]
    rw [if_neg (show ¬ (('}' :: rest).head? = some ',') from by simp),
      if_pos (show (('}' :: rest).head? = some '}') from rfl)]
    rfl
  · rcases ha : dumpsVal v with e | dv
    · simp only [dumpsMembers, ha] at hd
      exact Except.noConfusion hd
    rcases hb : dumpsMembers ((k2, v2) :: kvs2) with e | rest2
    · simp only [dumpsMembers, ha, hb] at hd
      exact Except.noConfusion hd
    simp only [dumpsMembers, ha, hb, Except.ok.injEq] at hd
    rw [← hd]
    simp only [List.cons_append, List.append_assoc, List.singleton_append, List.nil_append]
    rw [parseMembers_succ, if_pos rfl]
    rw [parseStringRest_escapeString k.data
      (':' :: ' ' :: (dv ++ ',' :: ' ' :: (rest2 ++ '}' :: rest)))]
    dsimp only
    rw [skipWs_cons_of_not_ws (by decide)]
    rw [if_pos (show ((':' :: ' ' :: (dv ++ ',' :: ' ' :: (rest2 ++ '}' :: rest))).head?
      = some ':') from rfl)]
    rw [show ((':' :: ' ' :: (dv ++ ',' :: ' ' :: (rest2 ++ '}' :: rest))).tail)
      = ' ' :: (dv ++ ',' :: ' ' :: (rest2 ++ '}' :: rest)) from rfl]
    rw [skipWs_cons_ws (by decide)]
    rcases dumpsVal_head v dv ha with ⟨c2, t2, rfl, hg2⟩
    simp only [List.cons_append]
    rw [skipWs_goodHead hg2]
    have hfv : need v ≤ f := by
      simp only [needMembers] at hf
      omega
    have hfm : needMembers ((k2, v2) :: kvs2) ≤ f := by
      simp only [needMembers] at hf ⊢
      omega
    have IH := parseValue_dumps v (c2 :: t2)
      (',' :: ' ' :: (rest2 ++ '}' :: rest)) f ha hfv rfl
    simp only [List.cons_append] at IH
    rw [IH]
    dsimp only
    rw [skipWs_cons_of_not_ws (by decide)]
    rw [if_pos (show ((',' :: ' ' :: (rest2 ++ '}' :: rest)).head? = some ',') from rfl)]
    rw [show ((',' :: ' ' :: (rest2 ++ '}' :: rest)).tail)
      = ' ' :: (rest2 ++ '}' :: rest) from rfl]
    rw [skipWs_cons_ws (by decide)]
    rcases dumpsMembers_head ((k2, v2) :: kvs2) rest2 (List.cons_ne_nil (k2, v2) kvs2) hb
      with ⟨t3, rfl⟩
    simp only [List.cons_append]
    rw [skipWs_cons_of_not_ws (by decide)]
    have IH2 := parseMembers_dumps ((k2, v2) :: kvs2) ('"' :: t3) rest f
      (List.cons_ne_nil (k2, v2) kvs2) hb hfm
    simp only [List.cons_append] at IH2
    rw [IH2]
    rfl
end

/-- Round-trip of the modelled Python JSON codec: `json.loads` inverts
`json.dumps` on every serializable value. -/
theorem loads_dumps (v : PyObj) (s : String) (h : dumps v = .ok s) :
    loads s = some v := by
  rcases hv : dumpsVal v with e | cs
  · rw [dumps, hv] at h
    exact Except.noConfusion h
  · rw [dumps, hv] at h
    simp only [Except.map, Except.ok.injEq] at h
    subst h
    rcases dumpsVal_head v cs hv with ⟨c, t, rfl, hg⟩
    show loadsChars (c :: t) = some v
    unfold loadsChars
    rw [skipWs_goodHead hg]
    have hlen := need_le v (c :: t) hv
    have hparse := parseValue_dumps v (c :: t) [] ((c :: t).length + 1) hv (by omega) rfl
    rw [List.append_nil] at hparse
    dsimp only
    rw [hparse]
    rfl

/-! ### The database model and the manager operations -/

/-- One row of the `video_metadata` table, as returned by `SELECT *`.
`metadata` is the `TEXT` column; `none` models SQL `NULL`. The
`created_at` / `updated_at` timestamp columns are set by the database
engine and omitted: no modelled behavior reads them. -/
structure Row where
  video_id : String
  metadata : Option String
deriving Repr, DecidableEq

/-- The `video_metadata` table: its rows in storage order. -/
abbrev Table := List Row

/-- Failure oracle for the external database server. `connOk i` says
whether the i-th connection attempt inside `_get_connection` succeeds
(Python `pymysql.connect` returning instead of raising `pymysql.Error`);
`queryOk` says whether the SQL statement itself executes without a
database error once a connection is held. -/
structure DbEnv where
  connOk : Nat → Bool
  queryOk : Bool

/-- The Python exceptions the embedded code can raise: any
`pymysql.Error`, a `json.JSONDecodeError` from `json.loads`, and the
`TypeError` raised by `json.dumps` on a non-serializable argument. -/
inductive PyErr where
  | dbError : PyErr
  | decodeError : PyErr
  | typeError : PyErr
deriving Repr, DecidableEq

/-- `max_retries` in `_get_connection`. -/
def max_retries : Nat := 3

/-- `retry_delay` (seconds) in `_get_connection`. -/
def retry_delay : Nat := 1

/-- Outcome of `_get_connection`: whether a connection was obtained
(`ok = false` means the final attempt failed and its `pymysql.Error` was
re-raised), the total seconds spent in `time.sleep` between attempts, and
how many connection attempts were made. -/
structure ConnResult where
  ok : Bool
  sleepSeconds : Nat
  attempts : Nat
deriving Repr, DecidableEq

/-- The `for attempt in range(max_retries)` loop of `_get_connection`,
starting at iteration `attempt` with `remaining` iterations left: try to
connect; on failure, re-raise if this was the last attempt, otherwise
sleep `retry_delay` seconds and continue. -/
def connectLoop (connOk : Nat → Bool) : Nat → Nat → ConnResult
  | _, 0 => ⟨false, 0, 0⟩
  | attempt, remaining + 1 =>
    if connOk attempt then ⟨true, 0, 1⟩
    else if remaining = 0 then ⟨false, 0, 1⟩
    else
      let p := connectLoop connOk (attempt + 1) remaining
      ⟨p.ok, retry_delay + p.sleepSeconds, p.attempts + 1⟩

/-- Model of `_get_connection`. -/
def get_connection (connOk : Nat → Bool) : ConnResult :=
  connectLoop connOk 0 max_retries

/-- State of the external schema: whether the database and the
`video_metadata` table exist, and the stored rows. -/
structure Schema where
  dbExists : Bool
  tableExists : Bool
  rows : Table
deriving Repr, DecidableEq

/-- Body of `_create_table` before its exception handler: acquire a
connection without selecting a database (re-raising on exhaustion), then
run `CREATE DATABASE IF NOT EXISTS`, `USE`, `CREATE TABLE IF NOT EXISTS`
and commit; a query-level failure raises a `pymysql.Error`. -/
def create_table_body (env : DbEnv) (sc : Schema) : Except PyErr Schema :=
  if !(get_connection env.connOk).ok then .error .dbError
  else if !env.queryOk then .error .dbError
  else .ok { sc with dbExists := true, tableExists := true }

/-- Model of `_create_table`: the body wrapped in
`except pymysql.Error: print(...)`, so a bootstrap failure is swallowed
and the schema state is left as it was. -/
def create_table (env : DbEnv) (sc : Schema) : Schema :=
  match create_table_body env sc with
  | .ok sc2 => sc2
  | .error _ => sc

/-- The manager object: the connection parameters stored by `__init__`. -/
structure VideoMetaDataManager where
  db_name : String
  host : String
  user : String
  password : String
  port : Nat
deriving Repr, DecidableEq

/-- Model of `VideoMetaDataManager.__init__`: store the parameters and run
`_create_table`. The `Except` result type records which exceptions can
escape the constructor. -/
def init_manager (env : DbEnv) (db_name host user password : String) (port : Nat)
    (sc : Schema) : Except PyErr VideoMetaDataManager × Schema :=
  (.ok { db_name := db_name, host := host, user := user, password := password,
         port := port },
   create_table env sc)

/-- `SELECT * FROM video_metadata WHERE video_id = %s` followed by
`fetchone`: the first matching row in table order. -/
def selectOne (t : Table) (video_id : String) : Option Row :=
  t.find? fun r => r.video_id == video_id

/-- `INSERT INTO video_metadata (video_id, metadata) VALUES (%s, %s)`:
appends a row, or raises an `IntegrityError` (a `pymysql.Error`) when the
primary key `video_id` is already present. -/
def insertRow (t : Table) (video_id : String) (metadata_json : String) :
    Except PyErr Table :=
  if t.any fun r => r.video_id == video_id then .error .dbError
  else .ok (t ++ [{ video_id := video_id, metadata := some metadata_json }])

/-- `UPDATE video_metadata SET metadata = %s WHERE video_id = %s`: the new
table and the affected row count (`cursor.rowcount`). -/
def updateRows (t : Table) (video_id : String) (metadata_json : String) : Table × Nat :=
  (t.map fun r =>
    if r.video_id == video_id then { r with metadata := some metadata_json } else r,
   t.countP fun r => r.video_id == video_id)

/-- The dictionary `{'video_id': ..., 'metadata': ...}` returned by
`get_video_metadata` and listed by `get_all_videos`. -/
structure VideoRecord where
  video_id : String
  metadata : PyObj

/-- The `except pymysql.Error` handler of the public methods: a database
error becomes the method sentinel; every other exception propagates. -/
def catchDb {α : Type} (r : Except PyErr α) (sentinel : α) : Except PyErr α :=
  match r with
  | .error .dbError => .ok sentinel
  | other => other

/-- The `except (pymysql.Error, json.JSONDecodeError)` handler of
`get_video_metadata`. -/
def catchDbDecode {α : Type} (r : Except PyErr α) (sentinel : α) : Except PyErr α :=
  match r with
  | .error .dbError => .ok sentinel
  | .error .decodeError => .ok sentinel
  | other => other

/-- Body of `insert_video_data` before its exception handler:
`json.dumps`, connection acquisition, `INSERT`, commit, `lastrowid`
(which is 0, since `video_metadata` has no `AUTO_INCREMENT` column).
`Except.error` marks exactly the raise points of the Python body. -/
def insert_video_data_body (env : DbEnv) (t : Table) (video_id : String)
    (metadata : PyObj) : Except PyErr (Option Nat) × Table :=
  match dumps metadata with
  | .error _ => (.error .typeError, t)
  | .ok metadata_json =>
    if !(get_connection env.connOk).ok then (.error .dbError, t)
    else if !env.queryOk then (.error .dbError, t)
    else
      match insertRow t video_id metadata_json with
      | .error e => (.error e, t)
      | .ok t2 => (.ok (some 0), t2)

/-- Model of `insert_video_data`: the body wrapped in
`except pymysql.Error: ...; return None`. -/
def insert_video_data (env : DbEnv) (t : Table) (video_id : String) (metadata : PyObj) :
    Except PyErr (Option Nat) × Table :=
  let p := insert_video_data_body env t video_id metadata
  (catchDb p.1 none, p.2)

/-- Body of `update_video_metadata` before its exception handler. -/
def update_video_metadata_body (env : DbEnv) (t : Table) (video_id : String)
    (new_metadata : PyObj) : Except PyErr Nat × Table :=
  match dumps new_metadata with
  | .error _ => (.error .typeError, t)
  | .ok new_metadata_json =>
    if !(get_connection env.connOk).ok then (.error .dbError, t)
    else if !env.queryOk then (.error .dbError, t)
    else
      let p := updateRows t video_id new_metadata_json
      (.ok p.2, p.1)

/-- Model of `update_video_metadata`: the body wrapped in
`except pymysql.Error: ...; return 0`. -/
def update_video_metadata (env : DbEnv) (t : Table) (video_id : String)
    (new_metadata : PyObj) : Except PyErr Nat × Table :=
  let p := update_video_metadata_body env t video_id new_metadata
  (catchDb p.1 0, p.2)

/-- Body of `get_video_metadata` before its exception handler: fetch the
row; if present, build `{'video_id': ..., 'metadata': json.loads(...) if
row['metadata'] else {}}` (Python truthiness: `NULL` and the empty string
are falsy); a `json.loads` failure raises `JSONDecodeError`. -/
def get_video_metadata_body (env : DbEnv) (t : Table) (video_id : String) :
    Except PyErr (Option VideoRecord) :=
  if !(get_connection env.connOk).ok then .error .dbError
  else if !env.queryOk then .error .dbError
  else
    match selectOne t video_id with
    | some row =>
      match row.metadata with
      | some s =>
        if s = "" then .ok (some { video_id := row.video_id, metadata := .dict [] })
        else
          match loads s with
          | some j => .ok (some { video_id := row.video_id, metadata := j })
          | none => .error .decodeError
      | none => .ok (some { video_id := row.video_id, metadata := .dict [] })
    | none => .ok none

/-- Model of `get_video_metadata`: the body wrapped in
`except (pymysql.Error, json.JSONDecodeError): ...; return None`. -/
def get_video_metadata (env : DbEnv) (t : Table) (video_id : String) :
    Except PyErr (Option VideoRecord) :=
  catchDbDecode (get_video_metadata_body env t video_id) none

/-- The per-row decode of the `get_all_videos` loop: the inner
`try ... except json.JSONDecodeError` makes a decode failure skip the row
(`none`); `NULL` and empty text decode to the empty dictionary. -/
def decodeRow (row : Row) : Option VideoRecord :=
  match row.metadata with
  | some s =>
    if s = "" then some { video_id := row.video_id, metadata := .dict [] }
    else
      match loads s with
      | some j => some { video_id := row.video_id, metadata := j }
      | none => none
  | none => some { video_id := row.video_id, metadata := .dict [] }

/-- The `for row in rows` loop of `get_all_videos`, appending each
successfully decoded row to `result` in order. -/
def collectRows : Table → List VideoRecord
  | [] => []
  | row :: rows =>
    match decodeRow row with
    | some rec => rec :: collectRows rows
    | none => collectRows rows

/-- Body of `get_all_videos` before its exception handler. -/
def get_all_videos_body (env : DbEnv) (t : Table) : Except PyErr (List VideoRecord) :=
  if !(get_connection env.connOk).ok then .error .dbError
  else if !env.queryOk then .error .dbError
  else .ok (collectRows t)

/-- Model of `get_all_videos`: the body wrapped in
`except pymysql.Error: ...; return []`. -/
def get_all_videos (env : DbEnv) (t : Table) : Except PyErr (List VideoRecord) :=
  catchDb (get_all_videos_body env t) []

/-! ### Support lemmas about the table operations -/

theorem dumps_ne_empty (m : PyObj) (s : String) (h : dumps m = .ok s) : s ≠ "" := by
  rcases hv : dumpsVal m with e0 | cs
  · rw [dumps, hv] at h
    exact Except.noConfusion h
  · rw [dumps, hv] at h
    simp only [Except.map, Except.ok.injEq] at h
    subst h
    rcases dumpsVal_head m cs hv with ⟨c, t, rfl, _⟩
    intro e
    have h2 := congrArg String.data e
    simp at h2

theorem any_eq_false_of_selectOne_none (t : Table) (vid : String)
    (h : selectOne t vid = none) : (t.any fun r => r.video_id == vid) = false := by
  unfold selectOne at h
  rw [List.any_eq_false]
  exact List.find?_eq_none.mp h

theorem any_eq_true_of_selectOne_some (t : Table) (vid : String) (r : Row)
    (h : selectOne t vid = some r) : (t.any fun x => x.video_id == vid) = true := by
  unfold selectOne at h
  rw [List.any_eq_true]
  exact ⟨r, List.mem_of_find?_eq_some h, @List.find?_some _ (fun x => x.video_id == vid) r t h⟩

theorem video_id_of_selectOne_some (t : Table) (vid : String) (r : Row)
    (h : selectOne t vid = some r) : r.video_id = vid := by
  unfold selectOne at h
  exact eq_of_beq (@List.find?_some _ (fun x => x.video_id == vid) r t h)

theorem selectOne_append_fresh (t : Table) (vid : String) (row : Row)
    (h : selectOne t vid = none) (hmatch : (row.video_id == vid) = true) :
    selectOne (t ++ [row]) vid = some row := by
  unfold selectOne at h ⊢
  rw [List.find?_append, h, @List.find?_cons_of_pos _ (fun r => r.video_id == vid) row [] hmatch]
  rfl

theorem map_update_id (t : Table) (vid s : String)
    (hall : ∀ r ∈ t, (r.video_id == vid) = false) :
    (t.map fun r => if r.video_id == vid then { r with metadata := some s } else r) = t := by
  induction t with
  | nil => rfl
  | cons r tt ih =>
    rw [List.map_cons, if_neg (by simp [hall r (List.mem_cons_self r tt)]),
      ih fun x hx => hall x (List.mem_cons_of_mem r hx)]

theorem updateRows_absent (t : Table) (vid s : String)
    (h : selectOne t vid = none) : updateRows t vid s = (t, 0) := by
  have hall : ∀ r ∈ t, (r.video_id == vid) = false := by
    intro r hr
    unfold selectOne at h
    have h2 := List.find?_eq_none.mp h r hr
    simpa using h2
  unfold updateRows
  rw [map_update_id t vid s hall]
  rw [List.countP_eq_zero.mpr (by intro r hr; simp [hall r hr])]

theorem find?_map_update (t : Table) (vid s : String) (r0 : Row)
    (h : List.find? (fun r => r.video_id == vid) t = some r0) :
    List.find? (fun r => r.video_id == vid)
      (t.map fun r => if r.video_id == vid then { r with metadata := some s } else r) =
      some { r0 with metadata := some s } := by
  induction t with
  | nil => exact Option.noConfusion h
  | cons r tt ih =>
    by_cases hb : (r.video_id == vid) = true
    · rw [@List.find?_cons_of_pos _ (fun x => x.video_id == vid) r tt hb] at h
      injection h with h
      subst h
      rw [List.map_cons, if_pos hb]
      exact @List.find?_cons_of_pos _ (fun x => x.video_id == vid)
        { video_id := r.video_id, metadata := some s }
        (tt.map fun r => if r.video_id == vid then { r with metadata := some s } else r) hb
    · rw [@List.find?_cons_of_neg _ (fun x => x.video_id == vid) r tt hb] at h
      rw [List.map_cons, if_neg hb, @List.find?_cons_of_neg _ (fun x => x.video_id == vid) r
        (tt.map fun r => if r.video_id == vid then { r with metadata := some s } else r) hb]
      exact ih h

theorem selectOne_updateRows_found (t : Table) (vid s : String) (r0 : Row)
    (h : selectOne t vid = some r0) :
    selectOne (updateRows t vid s).1 vid = some { r0 with metadata := some s } := by
  unfold selectOne at h
  show List.find? (fun r => r.video_id == vid)
    (t.map fun r => if r.video_id == vid then { r with metadata := some s } else r) =
    some { r0 with metadata := some s }
  exact find?_map_update t vid s r0 h

theorem countP_one_of_found_nodup (t : Table) (vid : String) (r0 : Row)
    (h : selectOne t vid = some r0) (hnd : (t.map Row.video_id).Nodup) :
    (t.countP fun r => r.video_id == vid) = 1 := by
  have hv := video_id_of_selectOne_some t vid r0 h
  unfold selectOne at h
  have hmem : vid ∈ t.map Row.video_id := by
    rw [← hv]
    exact List.mem_map_of_mem Row.video_id (List.mem_of_find?_eq_some h)
  have hcount := List.count_eq_one_of_mem hnd hmem
  rw [← hcount]
  show t.countP (fun r => r.video_id == vid) = List.count vid (t.map Row.video_id)
  rw [List.count, List.countP_map]
  rfl

theorem collectRows_eq_filterMap (t : Table) :
    collectRows t = t.filterMap decodeRow := by
  induction t with
  | nil => rfl
  | cons r tt ih =>
    cases hd : decodeRow r <;> simp [collectRows, List.filterMap_cons, hd, ih]

/-! ### Behavior of the public operations -/

theorem insert_video_data_fresh (env : DbEnv) (t : Table) (vid : String) (m : PyObj)
    (s : String) (hser : dumps m = .ok s) (hc : (get_connection env.connOk).ok = true)
    (hq : env.queryOk = true) (hfresh : selectOne t vid = none) :
    insert_video_data env t vid m =
      (.ok (some 0), t ++ [{ video_id := vid, metadata := some s }]) := by
  unfold insert_video_data insert_video_data_body insertRow
  rw [hser, hc, hq, any_eq_false_of_selectOne_none t vid hfresh]
  simp [catchDb]

theorem insert_video_data_dup (env : DbEnv) (t : Table) (vid : String) (m : PyObj)
    (s : String) (r : Row) (hser : dumps m = .ok s)
    (hc : (get_connection env.connOk).ok = true) (hq : env.queryOk = true)
    (hdup : selectOne t vid = some r) :
    insert_video_data env t vid m = (.ok none, t) := by
  unfold insert_video_data insert_video_data_body insertRow
  rw [hser, hc, hq, any_eq_true_of_selectOne_some t vid r hdup]
  simp [catchDb]

theorem get_video_metadata_found (env : DbEnv) (t : Table) (vid : String) (m : PyObj)
    (s : String) (r : Row) (hc : (get_connection env.connOk).ok = true)
    (hq : env.queryOk = true) (hfind : selectOne t vid = some r)
    (hmeta : r.metadata = some s) (hser : dumps m = .ok s) :
    get_video_metadata env t vid = .ok (some { video_id := r.video_id, metadata := m }) := by
  unfold get_video_metadata get_video_metadata_body
  rw [hc, hq, hfind]
  dsimp only
  rw [hmeta]
  dsimp only
  rw [if_neg (dumps_ne_empty m s hser), loads_dumps m s hser]
  simp [catchDbDecode]

theorem update_video_metadata_absent (env : DbEnv) (t : Table) (vid : String) (m : PyObj)
    (s : String) (hser : dumps m = .ok s) (hc : (get_connection env.connOk).ok = true)
    (hq : env.queryOk = true) (habs : selectOne t vid = none) :
    update_video_metadata env t vid m = (.ok 0, t) := by
  unfold update_video_metadata update_video_metadata_body
  rw [hser, hc, hq]
  dsimp only
  rw [updateRows_absent t vid s habs]
  simp [catchDb]

theorem update_video_metadata_found (env : DbEnv) (t : Table) (vid : String) (m : PyObj)
    (s : String) (r0 : Row) (hser : dumps m = .ok s)
    (hc : (get_connection env.connOk).ok = true) (hq : env.queryOk = true)
    (hfind : selectOne t vid = some r0) (hnd : (t.map Row.video_id).Nodup) :
    update_video_metadata env t vid m = (.ok 1, (updateRows t vid s).1) := by
  unfold update_video_metadata update_video_metadata_body
  rw [hser, hc, hq]
  dsimp only
  rw [show (updateRows t vid s).2 = t.countP (fun r => r.video_id == vid) from rfl]
  rw [countP_one_of_found_nodup t vid r0 hfind hnd]
  simp [catchDb]

theorem get_video_metadata_none (env : DbEnv) (t : Table) (vid : String)
    (hc : (get_connection env.connOk).ok = true) (hq : env.queryOk = true)
    (habs : selectOne t vid = none) :
    get_video_metadata env t vid = .ok none := by
  unfold get_video_metadata get_video_metadata_body
  rw [hc, hq, habs]
  simp [catchDbDecode]

theorem get_video_metadata_corrupt (env : DbEnv) (t : Table) (vid : String) (r : Row)
    (s : String) (hc : (get_connection env.connOk).ok = true) (hq : env.queryOk = true)
    (hfind : selectOne t vid = some r) (hmeta : r.metadata = some s) (hne : s ≠ "")
    (hbad : loads s = none) :
    get_video_metadata env t vid = .ok none := by
  unfold get_video_metadata get_video_metadata_body
  rw [hc, hq, hfind]
  dsimp only
  rw [hmeta]
  dsimp only
  rw [if_neg hne, hbad]
  simp [catchDbDecode]

theorem get_video_metadata_falsy (env : DbEnv) (t : Table) (vid : String) (r : Row)
    (hc : (get_connection env.connOk).ok = true) (hq : env.queryOk = true)
    (hfind : selectOne t vid = some r) (hmeta : r.metadata = none ∨ r.metadata = some "") :
    get_video_metadata env t vid =
      .ok (some { video_id := r.video_id, metadata := .dict [] }) := by
  unfold get_video_metadata get_video_metadata_body
  rw [hc, hq, hfind]
  dsimp only
  rcases hmeta with hm | hm <;> rw [hm] <;> simp [catchDbDecode]

theorem catchDbDecode_ok {α : Type} (r : Except PyErr α) (d : α)
    (h : r ≠ .error .typeError) : ∃ y, catchDbDecode r d = .ok y := by
  rcases r with e | y
  · cases e
    · exact ⟨d, rfl⟩
    · exact ⟨d, rfl⟩
    · exact absurd rfl h
  · exact ⟨y, rfl⟩

theorem get_body_ne_typeError (env : DbEnv) (t : Table) (vid : String) :
    get_video_metadata_body env t vid ≠ .error .typeError := by
  unfold get_video_metadata_body
  intro h
  split at h
  · exact PyErr.noConfusion (Except.error.inj h)
  split at h
  · exact PyErr.noConfusion (Except.error.inj h)
  rcases hsel : selectOne t vid with _ | r <;> rw [hsel] at h <;> try dsimp only at h
  · exact Except.noConfusion h
  rcases hm : r.metadata with _ | s <;> rw [hm] at h <;> try dsimp only at h
  · exact Except.noConfusion h
  by_cases he : s = ""
  · rw [if_pos he] at h
    exact Except.noConfusion h
  rw [if_neg he] at h
  rcases hl : loads s with _ | j <;> rw [hl] at h
  · exact PyErr.noConfusion (Except.error.inj h)
  · exact Except.noConfusion h

theorem get_video_metadata_total (env : DbEnv) (t : Table) (vid : String) :
    ∃ y, get_video_metadata env t vid = .ok y :=
  catchDbDecode_ok _ none (get_body_ne_typeError env t vid)

theorem get_all_videos_ok (env : DbEnv) (t : Table)
    (hc : (get_connection env.connOk).ok = true) (hq : env.queryOk = true) :
    get_all_videos env t = .ok (t.filterMap decodeRow) := by
  unfold get_all_videos get_all_videos_body
  rw [hc, hq, collectRows_eq_filterMap]
  rfl

theorem get_all_videos_connfail (env : DbEnv) (t : Table)
    (hcf : (get_connection env.connOk).ok = false) :
    get_all_videos env t = .ok [] := by
  unfold get_all_videos get_all_videos_body
  rw [hcf]
  rfl

theorem get_all_videos_queryfail (env : DbEnv) (t : Table)
    (hqf : env.queryOk = false) :
    get_all_videos env t = .ok [] := by
  unfold get_all_videos get_all_videos_body
  rw [hqf]
  cases hb : (get_connection env.connOk).ok <;> rfl

theorem decodeRow_corrupt (r : Row) (s : String) (hmeta : r.metadata = some s)
    (hne : s ≠ "") (hbad : loads s = none) : decodeRow r = none := by
  unfold decodeRow
  rw [hmeta]
  dsimp only
  rw [if_neg hne, hbad]

theorem decodeRow_ok (r : Row) (s : String) (m : PyObj) (hmeta : r.metadata = some s)
    (hser : dumps m = .ok s) :
    decodeRow r = some { video_id := r.video_id, metadata := m } := by
  unfold decodeRow
  rw [hmeta]
  dsimp only
  rw [if_neg (dumps_ne_empty m s hser), loads_dumps m s hser]

theorem insert_video_data_connfail (env : DbEnv) (t : Table) (vid : String) (m : PyObj)
    (s : String) (hser : dumps m = .ok s)
    (hcf : (get_connection env.connOk).ok = false) :
    insert_video_data env t vid m = (.ok none, t) := by
  unfold insert_video_data insert_video_data_body
  rw [hser, hcf]
  rfl

theorem update_video_metadata_connfail (env : DbEnv) (t : Table) (vid : String) (m : PyObj)
    (s : String) (hser : dumps m = .ok s)
    (hcf : (get_connection env.connOk).ok = false) :
    update_video_metadata env t vid m = (.ok 0, t) := by
  unfold update_video_metadata update_video_metadata_body
  rw [hser, hcf]
  rfl

theorem get_video_metadata_connfail (env : DbEnv) (t : Table) (vid : String)
    (hcf : (get_connection env.connOk).ok = false) :
    get_video_metadata env t vid = .ok none := by
  unfold get_video_metadata get_video_metadata_body
  rw [hcf]
  rfl

/-! ### Claim theorems, witnesses and counterexamples -/

theorem get_connection_eq (connOk : Nat → Bool) :
    get_connection connOk =
      if connOk 0 then ⟨true, 0, 1⟩
      else if connOk 1 then ⟨true, 1, 2⟩
      else if connOk 2 then ⟨true, 2, 3⟩
      else ⟨false, 2, 3⟩ := by
  cases h0 : connOk 0 <;> cases h1 : connOk 1 <;> cases h2 : connOk 2 <;>
    simp [get_connection, connectLoop, max_retries, retry_delay, h0, h1, h2]

/-- C1: for every `video_id` and every JSON-serializable `metadata` value,
`insert_video_data(video_id, metadata)` on a store with no existing row for
that `video_id` (with a healthy database), followed by
`get_video_metadata(video_id)`, returns the dictionary
`{video_id, metadata}` with the returned metadata deep-equal to the value
originally passed to insert. -/
theorem C1_insert_then_get_roundtrip (env1 env2 : DbEnv) (t : Table) (vid : String)
    (metadata : PyObj) (s : String)
    (hser : dumps metadata = .ok s)
    (hc1 : (get_connection env1.connOk).ok = true) (hq1 : env1.queryOk = true)
    (hc2 : (get_connection env2.connOk).ok = true) (hq2 : env2.queryOk = true)
    (hfresh : selectOne t vid = none) :
    insert_video_data env1 t vid metadata =
      (.ok (some 0), t ++ [{ video_id := vid, metadata := some s }]) ∧
    get_video_metadata env2 (t ++ [{ video_id := vid, metadata := some s }]) vid =
      .ok (some { video_id := vid, metadata := metadata }) := by
  constructor
  · exact insert_video_data_fresh env1 t vid metadata s hser hc1 hq1 hfresh
  · have hfind := selectOne_append_fresh t vid ⟨vid, some s⟩ hfresh (by simp)
    exact get_video_metadata_found env2 _ vid metadata s _ hc2 hq2 hfind rfl hser

/-- Witness for C1 at concrete inputs. -/
theorem C1_witness :
    insert_video_data ⟨fun _ => true, true⟩ [] "vid-001" (.int 42) =
      (.ok (some 0), [{ video_id := "vid-001", metadata := some "42" }]) ∧
    get_video_metadata ⟨fun _ => true, true⟩
      [{ video_id := "vid-001", metadata := some "42" }] "vid-001" =
      .ok (some { video_id := "vid-001", metadata := .int 42 }) :=
  C1_insert_then_get_roundtrip ⟨fun _ => true, true⟩ ⟨fun _ => true, true⟩ [] "vid-001"
    (.int 42) "42"
    (by simp [dumps, dumpsVal, printInt, printNat, natDigitsRev]; rfl)
    rfl rfl rfl rfl rfl

/-- C2 counterexample: with every connection attempt failing,
`_get_connection` itself fails hard, yet every public operation returns its
sentinel value instead of letting the error propagate to the caller: the
claim that connection exhaustion propagates out of the public operations is
false on the code. -/
theorem C2_counterexample :
    (get_connection (fun _ => false)).ok = false ∧
    insert_video_data ⟨fun _ => false, true⟩ [] "v1" PyObj.null = (.ok none, []) ∧
    update_video_metadata ⟨fun _ => false, true⟩ [] "v1" PyObj.null = (.ok 0, []) ∧
    get_video_metadata ⟨fun _ => false, true⟩ [] "v1" = .ok none ∧
    get_all_videos ⟨fun _ => false, true⟩ [] = .ok [] := by
  refine ⟨rfl, ?_, ?_, rfl, rfl⟩
  · exact insert_video_data_connfail _ [] "v1" PyObj.null "null"
      (by simp [dumps, dumpsVal]; rfl) rfl
  · exact update_video_metadata_connfail _ [] "v1" PyObj.null "null"
      (by simp [dumps, dumpsVal]; rfl) rfl

/-- C2 (amended): when every connection attempt fails, the `pymysql.Error`
is re-raised by `_get_connection`, but each public operation catches
`pymysql.Error` and converts it to its sentinel return value (None for
insert, 0 for update, None for get, [] for list), so no error propagates
out of the public operations to the caller. -/
theorem C2_amended (env : DbEnv) (t : Table) (vid : String) (m : PyObj) (s : String)
    (hser : dumps m = .ok s) (hcf : (get_connection env.connOk).ok = false) :
    insert_video_data env t vid m = (.ok none, t) ∧
    update_video_metadata env t vid m = (.ok 0, t) ∧
    get_video_metadata env t vid = .ok none ∧
    get_all_videos env t = .ok [] :=
  ⟨insert_video_data_connfail env t vid m s hser hcf,
   update_video_metadata_connfail env t vid m s hser hcf,
   get_video_metadata_connfail env t vid hcf,
   get_all_videos_connfail env t hcf⟩

/-- Witness for the amended C2 at concrete inputs. -/
theorem C2_witness :
    insert_video_data ⟨fun _ => false, true⟩ [] "v2" PyObj.null = (.ok none, []) ∧
    update_video_metadata ⟨fun _ => false, true⟩ [] "v2" PyObj.null = (.ok 0, []) ∧
    get_video_metadata ⟨fun _ => false, true⟩ [] "v2" = .ok none ∧
    get_all_videos ⟨fun _ => false, true⟩ [] = .ok [] :=
  C2_amended ⟨fun _ => false, true⟩ [] "v2" PyObj.null "null"
    (by simp [dumps, dumpsVal]; rfl) rfl

/-- C3: after a successful `insert_video_data(video_id, m1)`, a second
`insert_video_data(video_id, m2)` returns the failure indicator None
without raising, and the stored record for `video_id` still holds the
first-inserted metadata text. -/
theorem C3_insert_duplicate (env1 env2 : DbEnv) (t : Table) (vid : String)
    (m1 m2 : PyObj) (s1 s2 : String)
    (h1 : dumps m1 = .ok s1) (h2 : dumps m2 = .ok s2)
    (hc1 : (get_connection env1.connOk).ok = true) (hq1 : env1.queryOk = true)
    (hc2 : (get_connection env2.connOk).ok = true) (hq2 : env2.queryOk = true)
    (hfresh : selectOne t vid = none) :
    insert_video_data env1 t vid m1 =
      (.ok (some 0), t ++ [{ video_id := vid, metadata := some s1 }]) ∧
    insert_video_data env2 (t ++ [{ video_id := vid, metadata := some s1 }]) vid m2 =
      (.ok none, t ++ [{ video_id := vid, metadata := some s1 }]) ∧
    selectOne (t ++ [{ video_id := vid, metadata := some s1 }]) vid =
      some { video_id := vid, metadata := some s1 } := by
  have hfind := selectOne_append_fresh t vid ⟨vid, some s1⟩ hfresh (by simp)
  exact ⟨insert_video_data_fresh env1 t vid m1 s1 h1 hc1 hq1 hfresh,
    insert_video_data_dup env2 _ vid m2 s2 ⟨vid, some s1⟩ h2 hc2 hq2 hfind, hfind⟩

/-- Witness for C3 at concrete inputs. -/
theorem C3_witness :
    insert_video_data ⟨fun _ => true, true⟩ [] "v" (.int 1) =
      (.ok (some 0), [{ video_id := "v", metadata := some "1" }]) ∧
    insert_video_data ⟨fun _ => true, true⟩ [{ video_id := "v", metadata := some "1" }]
      "v" (.int 2) = (.ok none, [{ video_id := "v", metadata := some "1" }]) ∧
    selectOne [{ video_id := "v", metadata := some "1" }] "v" =
      some { video_id := "v", metadata := some "1" } :=
  C3_insert_duplicate ⟨fun _ => true, true⟩ ⟨fun _ => true, true⟩ [] "v" (.int 1) (.int 2)
    "1" "2"
    (by simp [dumps, dumpsVal, printInt, printNat, natDigitsRev]; rfl)
    (by simp [dumps, dumpsVal, printInt, printNat, natDigitsRev]; rfl)
    rfl rfl rfl rfl rfl

/-- C4: `update_video_metadata(video_id, m1)` on a store with no row for
`video_id` returns 0 and creates no row; on a store with an existing row
(unique ids) it returns 1, and a subsequent `get_video_metadata(video_id)`
returns exactly `m1`, fully replacing the prior metadata value with no
merging of keys. -/
theorem C4_update_semantics (env env2 : DbEnv) (t : Table) (vid : String) (m1 : PyObj)
    (s1 : String) (r0 : Row)
    (hser : dumps m1 = .ok s1)
    (hc : (get_connection env.connOk).ok = true) (hq : env.queryOk = true)
    (hc2 : (get_connection env2.connOk).ok = true) (hq2 : env2.queryOk = true) :
    (selectOne t vid = none → update_video_metadata env t vid m1 = (.ok 0, t)) ∧
    (selectOne t vid = some r0 → (t.map Row.video_id).Nodup →
      update_video_metadata env t vid m1 = (.ok 1, (updateRows t vid s1).1) ∧
      get_video_metadata env2 (updateRows t vid s1).1 vid =
        .ok (some { video_id := r0.video_id, metadata := m1 })) := by
  constructor
  · intro habs
    exact update_video_metadata_absent env t vid m1 s1 hser hc hq habs
  · intro hfind hnd
    refine ⟨update_video_metadata_found env t vid m1 s1 r0 hser hc hq hfind hnd, ?_⟩
    have hfind2 := selectOne_updateRows_found t vid s1 r0 hfind
    exact get_video_metadata_found env2 _ vid m1 s1
      { video_id := r0.video_id, metadata := some s1 } hc2 hq2 hfind2 rfl hser

/-- Witness for C4 at concrete inputs. -/
theorem C4_witness :
    update_video_metadata ⟨fun _ => true, true⟩ [] "v" (.int 7) = (.ok 0, []) ∧
    (update_video_metadata ⟨fun _ => true, true⟩
        [{ video_id := "v", metadata := some "0" }] "v" (.int 7) =
      (.ok 1, [{ video_id := "v", metadata := some "7" }]) ∧
      get_video_metadata ⟨fun _ => true, true⟩
        [{ video_id := "v", metadata := some "7" }] "v" =
      .ok (some { video_id := "v", metadata := .int 7 })) := by
  constructor
  · exact (C4_update_semantics ⟨fun _ => true, true⟩ ⟨fun _ => true, true⟩ [] "v" (.int 7)
      "7" ⟨"v", none⟩
      (by simp [dumps, dumpsVal, printInt, printNat, natDigitsRev]; rfl)
      rfl rfl rfl rfl).1 rfl
  · exact (C4_update_semantics ⟨fun _ => true, true⟩ ⟨fun _ => true, true⟩
      [{ video_id := "v", metadata := some "0" }] "v" (.int 7) "7"
      ⟨"v", some "0"⟩
      (by simp [dumps, dumpsVal, printInt, printNat, natDigitsRev]; rfl)
      rfl rfl rfl rfl).2 rfl (by simp)

/-- C5: `get_video_metadata(video_id)` returns the absence indicator None
without raising, both when no row matches and when the stored metadata text
of the matching row fails to decode as JSON; it never raises to the caller
(its result is always a normal return). -/
theorem C5_get_absence (env : DbEnv) (t : Table) (vid : String) :
    (∃ y, get_video_metadata env t vid = .ok y) ∧
    ((get_connection env.connOk).ok = true → env.queryOk = true →
      selectOne t vid = none → get_video_metadata env t vid = .ok none) ∧
    (∀ r s, (get_connection env.connOk).ok = true → env.queryOk = true →
      selectOne t vid = some r → r.metadata = some s → s ≠ "" → loads s = none →
      get_video_metadata env t vid = .ok none) :=
  ⟨get_video_metadata_total env t vid,
   fun hc hq habs => get_video_metadata_none env t vid hc hq habs,
   fun r s hc hq hfind hmeta hne hbad =>
     get_video_metadata_corrupt env t vid r s hc hq hfind hmeta hne hbad⟩

/-- Witness for C5 at concrete inputs (a missing row, and a row whose
stored text is not valid JSON). -/
theorem C5_witness :
    get_video_metadata ⟨fun _ => true, true⟩ [] "v" = .ok none ∧
    get_video_metadata ⟨fun _ => true, true⟩
      [{ video_id := "v", metadata := some "x" }] "v" = .ok none := by
  constructor
  · exact (C5_get_absence ⟨fun _ => true, true⟩ [] "v").2.1 rfl rfl rfl
  · exact (C5_get_absence ⟨fun _ => true, true⟩
      [{ video_id := "v", metadata := some "x" }] "v").2.2 ⟨"v", some "x"⟩ "x"
      rfl rfl rfl rfl (by decide)
      (by simp [loads, loadsChars, skipWs, isWs, parseValue])

/-- C6: `get_all_videos` decodes each row independently: a row whose
metadata text fails to decode is skipped and the remaining rows are
returned decoded (the listing is the `filterMap` of the per-row decode);
and on a connection-level or query-level database error the call returns
the empty sequence instead of raising. -/
theorem C6_get_all_resilience (env : DbEnv) (t : Table) :
    ((get_connection env.connOk).ok = true → env.queryOk = true →
      get_all_videos env t = .ok (t.filterMap decodeRow)) ∧
    (∀ r s, Row.metadata r = some s → s ≠ "" → loads s = none → decodeRow r = none) ∧
    (∀ r s m, Row.metadata r = some s → dumps m = .ok s →
      decodeRow r = some { video_id := r.video_id, metadata := m }) ∧
    ((get_connection env.connOk).ok = false → get_all_videos env t = .ok []) ∧
    (env.queryOk = false → get_all_videos env t = .ok []) :=
  ⟨fun hc hq => get_all_videos_ok env t hc hq,
   fun r s hm hne hbad => decodeRow_corrupt r s hm hne hbad,
   fun r s m hm hser => decodeRow_ok r s m hm hser,
   fun hcf => get_all_videos_connfail env t hcf,
   fun hqf => get_all_videos_queryfail env t hqf⟩

/-- Witness for C6 at concrete inputs: one well-formed row, one corrupt
row; the corrupt row is skipped and the other is returned; a failing
connection yields the empty listing. -/
theorem C6_witness :
    get_all_videos ⟨fun _ => true, true⟩
      [{ video_id := "a", metadata := none }, { video_id := "b", metadata := some "x" }] =
      .ok [{ video_id := "a", metadata := .dict [] }] ∧
    get_all_videos ⟨fun _ => false, true⟩
      [{ video_id := "a", metadata := none }] = .ok [] := by
  constructor
  · have hx : loads "x" = none := by
      simp [loads, loadsChars, skipWs, isWs, parseValue]
    have h := (C6_get_all_resilience ⟨fun _ => true, true⟩
      [{ video_id := "a", metadata := none },
       { video_id := "b", metadata := some "x" }]).1 rfl rfl
    rw [h]
    simp [List.filterMap, decodeRow, hx]
  · exact (C6_get_all_resilience ⟨fun _ => false, true⟩
      [{ video_id := "a", metadata := none }]).2.2.2.1 rfl

/-- C7 counterexample: when every connection attempt fails, the code makes
3 attempts but sleeps only between consecutive attempts, so the total
retry sleep before the error surfaces is 2 seconds — not (approximately)
3 seconds as claimed. -/
theorem C7_counterexample :
    get_connection (fun _ => false) = ⟨false, 2, 3⟩ ∧
    ¬ ((get_connection (fun _ => false)).sleepSeconds = 3) := by
  constructor
  · rfl
  · decide

/-- C7 (amended): on connection failure, connection acquisition makes up to
the fixed limit of 3 attempts with a fixed 1-second delay between
consecutive attempts, so the worst-case total retry sleep before the error
surfaces is `(max_retries - 1) * retry_delay` = 2 seconds, reached exactly
when every attempt fails. -/
theorem C7_retry_schedule (connOk : Nat → Bool) :
    (get_connection connOk).attempts ≤ max_retries ∧
    (get_connection connOk).sleepSeconds ≤ (max_retries - 1) * retry_delay ∧
    ((∀ i, i < max_retries → connOk i = false) →
      get_connection connOk = ⟨false, (max_retries - 1) * retry_delay, max_retries⟩) := by
  refine ⟨?_, ?_, ?_⟩
  · rw [get_connection_eq]
    split_ifs <;> simp [max_retries]
  · rw [get_connection_eq]
    split_ifs <;> simp [max_retries, retry_delay]
  · intro hall
    have h0 : connOk 0 = false := hall 0 (by simp [max_retries])
    have h1 : connOk 1 = false := hall 1 (by simp [max_retries])
    have h2 : connOk 2 = false := hall 2 (by simp [max_retries])
    rw [get_connection_eq, if_neg (by simp [h0]), if_neg (by simp [h1]),
      if_neg (by simp [h2])]
    rfl

/-- Witness for the amended C7: all attempts failing gives 3 attempts and
2 seconds of sleep. -/
theorem C7_witness : get_connection (fun _ => false) = ⟨false, 2, 3⟩ :=
  (C7_retry_schedule (fun _ => false)).2.2 (fun _ _ => rfl)

/-- C8: a failure of the schema bootstrap (`_create_table`) is logged and
swallowed: the constructor returns the constructed manager normally and
never raises, and on a bootstrap failure the external schema state is left
untouched. -/
theorem C8_bootstrap_swallowed (env : DbEnv) (db_name host user password : String)
    (port : Nat) (sc : Schema) :
    (init_manager env db_name host user password port sc).1 =
      .ok { db_name := db_name, host := host, user := user, password := password,
            port := port } ∧
    (∀ e, create_table_body env sc = .error e →
      init_manager env db_name host user password port sc =
        (.ok { db_name := db_name, host := host, user := user, password := password,
               port := port }, sc)) := by
  constructor
  · rfl
  · intro e he
    unfold init_manager create_table
    rw [he]

/-- Witness for C8: constructing against a database that refuses every
connection still returns the manager and leaves the schema state as it
was. -/
theorem C8_witness :
    init_manager ⟨fun _ => false, true⟩ "video_database" "localhost" "root" "" 3306
      ⟨false, false, []⟩ =
      (.ok ⟨"video_database", "localhost", "root", "", 3306⟩, ⟨false, false, []⟩) :=
  (C8_bootstrap_swallowed ⟨fun _ => false, true⟩ "video_database" "localhost" "root" ""
    3306 ⟨false, false, []⟩).2 .dbError rfl

/-- C9: a stored row whose metadata text is NULL or empty is returned by
`get_video_metadata` and listed by `get_all_videos` with metadata equal to
the empty mapping, rather than being treated as a decode error, an
absence, or a skipped row. -/
theorem C9_empty_metadata (env : DbEnv) (t : Table) (vid : String) (r : Row) :
    decodeRow { video_id := vid, metadata := none } =
      some { video_id := vid, metadata := .dict [] } ∧
    decodeRow { video_id := vid, metadata := some "" } =
      some { video_id := vid, metadata := .dict [] } ∧
    ((get_connection env.connOk).ok = true → env.queryOk = true →
      selectOne t vid = some r → (r.metadata = none ∨ r.metadata = some "") →
      get_video_metadata env t vid =
        .ok (some { video_id := r.video_id, metadata := .dict [] })) ∧
    ((get_connection env.connOk).ok = true → env.queryOk = true →
      get_all_videos env t = .ok (t.filterMap decodeRow)) :=
  ⟨rfl, rfl,
   fun hc hq hfind hm => get_video_metadata_falsy env t vid r hc hq hfind hm,
   fun hc hq => get_all_videos_ok env t hc hq⟩

/-- Witness for C9: NULL metadata and empty-string metadata both read back
as the empty mapping. -/
theorem C9_witness :
    get_video_metadata ⟨fun _ => true, true⟩ [{ video_id := "v", metadata := none }] "v" =
      .ok (some { video_id := "v", metadata := .dict [] }) ∧
    get_video_metadata ⟨fun _ => true, true⟩ [{ video_id := "v", metadata := some "" }] "v" =
      .ok (some { video_id := "v", metadata := .dict [] }) := by
  constructor
  · exact (C9_empty_metadata ⟨fun _ => true, true⟩
      [{ video_id := "v", metadata := none }] "v" ⟨"v", none⟩).2.2.1 rfl rfl rfl
      (Or.inl rfl)
  · exact (C9_empty_metadata ⟨fun _ => true, true⟩
      [{ video_id := "v", metadata := some "" }] "v" ⟨"v", some ""⟩).2.2.1 rfl rfl rfl
      (Or.inr rfl)

/-- C10: for a metadata argument that is not JSON-serializable, both
`insert_video_data` and `update_video_metadata` let the serialization
`TypeError` propagate to the caller (only database errors are caught), and
no database write occurs: the table is unchanged. -/
theorem C10_nonserializable_raises (env : DbEnv) (t : Table) (vid : String) (m : PyObj)
    (h : dumps m = .error ()) :
    insert_video_data env t vid m = (.error .typeError, t) ∧
    update_video_metadata env t vid m = (.error .typeError, t) := by
  constructor
  · unfold insert_video_data insert_video_data_body
    rw [h]
    rfl
  · unfold update_video_metadata update_video_metadata_body
    rw [h]
    rfl

/-- Witness for C10 with a non-serializable object. -/
theorem C10_witness :
    insert_video_data ⟨fun _ => true, true⟩ [] "v" (.blob "set") =
      (.error .typeError, []) ∧
    update_video_metadata ⟨fun _ => true, true⟩ [] "v" (.blob "set") =
      (.error .typeError, []) :=
  C10_nonserializable_raises ⟨fun _ => true, true⟩ [] "v" (.blob "set")
    (by simp [dumps, dumpsVal]; rfl)

end VideoMetadata
